import Mathlib

/-!
# Zabbix-MCP: session registry, credential resolution, backend call, middleware

A shallow embedding of `pkg/client/client.go` and `pkg/client/middleware.go`,
of the server set-up in `cmd/zabbix-mcp-server` (`main.go`, `init.go`), and of
the helpers and handlers of `pkg/utils` and `pkg/tools` that the theorems are
about.

Conventions of the embedding:

* the package-level `activeClients sync.Map` is passed explicitly as a `SyncMap`;
* the process environment is passed explicitly as an `Env`;
* a `context.Context` is the chain of `context.WithValue` bindings, innermost first;
* a `*ZabbixClient` is `Option ZabbixClient` (`none` is the nil pointer); the client
  keeps the fields that the code reads back: `URL`, `AuthToken`, and the
  `InsecureSkipVerify` flag of its transport;
* logging calls that only write to the log sink are left out of functions whose
  results do not depend on them; the logging middleware keeps its log record;
* library functions (`encoding/json`, `net/http`) are parameters of the embedding;
* a Go string is the sequence of its characters (valid UTF-8); a `float64`
  argument is the rational number it denotes; Go's `int` is an integer that
  wraps around at 64 bits where an overflow can occur (`wrapInt`).
-/

namespace ZabbixMCP

/-! ## Constants of `client.go` -/

def ZabbixURL : String := "ZABBIX_URL"
def ZabbixToken : String := "ZABBIX_TOKEN"
def ZabbixUser : String := "ZABBIX_USER"
def ZabbixPassword : String := "ZABBIX_PASSWORD"
def ZabbixSkipTLSVerify : String := "ZABBIX_SKIP_VERIFY"
def ZabbixHeaderToken : String := "X-Zabbix-Token"
def ZabbixHeaderURL : String := "X-Zabbix-URL"

def DefaultZabbixURL : String := "http://127.0.0.1/api_jsonrpc.php"

/-! ## Environment and context -/

/-- Equality of results of fallible calls is decidable. -/
instance instDecidableEqExcept {ε α : Type} [DecidableEq ε] [DecidableEq α] :
    DecidableEq (Except ε α)
  | Except.ok a, Except.ok b =>
    if h : a = b then isTrue (by rw [h]) else isFalse (fun hc => h (Except.ok.inj hc))
  | Except.error a, Except.error b =>
    if h : a = b then isTrue (by rw [h]) else isFalse (fun hc => h (Except.error.inj hc))
  | Except.ok _, Except.error _ => isFalse (fun hc => Except.noConfusion hc)
  | Except.error _, Except.ok _ => isFalse (fun hc => Except.noConfusion hc)

/-- The process environment: the variables that are set, with their values. -/
abbrev Env := List (String × String)

/-- The call `os.LookupEnv(key)`: the value of the first binding of `key`, if any. -/
def LookupEnv : Env → String → Option String
  | [], _ => none
  | (k, v) :: rest, key => if k = key then some v else LookupEnv rest key

/-- The function `getEnv` of `client.go`: the value of a variable that is set
(also when it is set to the empty string), else the fallback. -/
def getEnv (env : Env) (key fallback : String) : String :=
  match LookupEnv env key with
  | some value => value
  | none => fallback

/-- A value of type `interface{}` stored in a context: a string, or a value of
some other dynamic type (identified by a tag). -/
inductive Any where
  | str (s : String)
  | other (tag : Nat)
  deriving DecidableEq, Repr

/-- A `context.Context` as its chain of `WithValue` bindings keyed by
`contextKey`, innermost binding first. -/
abbrev Context := List (String × Any)

/-- The method `ctx.Value(contextKey(key))`: the innermost binding of `key`, or nil. -/
def Context.Value : Context → String → Option Any
  | [], _ => none
  | (k, v) :: rest, key => if k = key then some v else Context.Value rest key

/-- The call `context.WithValue(ctx, contextKey(key), val)`. -/
def Context.WithValue (ctx : Context) (key : String) (val : Any) : Context :=
  (key, val) :: ctx

/-- The checked type assertion `v.(string)`: the string and `true`, or the zero
value and `false` when `v` is nil or not a string. -/
def stringAssert : Option Any → String × Bool
  | some (Any.str s) => (s, true)
  | _ => ("", false)

/-! ## Clients and the session registry -/

/-- The struct `ZabbixClient`; `SkipTLSVerify` is the `InsecureSkipVerify`
flag of the TLS configuration of its `HTTPClient`. -/
structure ZabbixClient where
  URL : String
  AuthToken : String
  SkipTLSVerify : Bool
  deriving DecidableEq, Repr

/-- A `server.ClientSession`, of which the code only reads `SessionID()`. -/
structure ClientSession where
  SessionID : String
  deriving DecidableEq, Repr

/-- The contents of a `sync.Map` from session ids to clients. -/
abbrev SyncMap := List (String × ZabbixClient)

/-- The method `sync.Map.Load`. -/
def SyncMap.Load : SyncMap → String → Option ZabbixClient
  | [], _ => none
  | (k, v) :: rest, key => if k = key then some v else SyncMap.Load rest key

/-- The method `sync.Map.Delete`: removes the entry of `key`, if there is one. -/
def SyncMap.Delete : SyncMap → String → SyncMap
  | [], _ => []
  | (k, v) :: rest, key =>
    if k = key then SyncMap.Delete rest key else (k, v) :: SyncMap.Delete rest key

/-- The method `sync.Map.Store`: sets the entry of `key`, replacing an earlier one. -/
def SyncMap.Store (m : SyncMap) (key : String) (value : ZabbixClient) : SyncMap :=
  (key, value) :: SyncMap.Delete m key

/-- The function `NewZabbixClient`: builds the client, stores it under the
session id and returns it with a nil error. -/
def NewZabbixClient (sessionId zabbixURL : String) (skipTLSVerify : Bool)
    (authToken : String) (activeClients : SyncMap) : Except String ZabbixClient × SyncMap :=
  let client : ZabbixClient :=
    { URL := zabbixURL, AuthToken := authToken, SkipTLSVerify := skipTLSVerify }
  (Except.ok client, SyncMap.Store activeClients sessionId client)

/-- The function `GetZabbixClient`. -/
def GetZabbixClient (activeClients : SyncMap) (sessionId : String) : Option ZabbixClient :=
  match SyncMap.Load activeClients sessionId with
  | some value => some value
  | none => none

/-- The function `DeleteZabbixClient`. -/
def DeleteZabbixClient (activeClients : SyncMap) (sessionId : String) : SyncMap :=
  SyncMap.Delete activeClients sessionId

/-- The function `CreateZabbixClientForSession`: resolves URL, token and TLS
flag from the context and the environment, then creates and stores the client. -/
def CreateZabbixClientForSession (env : Env) (ctx : Context) (session : ClientSession)
    (activeClients : SyncMap) : Except String ZabbixClient × SyncMap :=
  -- the part of the body after the token has been resolved
  let create (zabbixURL authToken : String) : Except String ZabbixClient × SyncMap :=
    let skipEnv := getEnv env ZabbixSkipTLSVerify "false"
    let skipTLSVerify := if skipEnv = "true" ∨ skipEnv = "1" then true else false
    match NewZabbixClient session.SessionID zabbixURL skipTLSVerify authToken activeClients with
    | (Except.error err, activeClients) =>
      (Except.error ("failed to create Zabbix client: " ++ err), activeClients)
    | (Except.ok newClient, activeClients) => (Except.ok newClient, activeClients)
  let (ctxURL, okURL) := stringAssert (ctx.Value ZabbixURL)
  let zabbixURL :=
    if okURL = false ∨ ctxURL = "" then getEnv env ZabbixURL DefaultZabbixURL else ctxURL
  let (ctxToken, okToken) := stringAssert (ctx.Value ZabbixToken)
  if okToken = false ∨ ctxToken = "" then
    let authToken := getEnv env ZabbixToken ""
    if authToken = "" then
      (Except.error "zabbix token not provided for session", activeClients)
    else
      create zabbixURL authToken
  else
    create zabbixURL ctxToken

/-- An operation on the registry: a store by `NewZabbixClient`, or a delete by
`DeleteZabbixClient`. -/
inductive RegistryOp where
  | store (sessionId zabbixURL : String) (skipTLSVerify : Bool) (authToken : String)
  | delete (sessionId : String)
  deriving DecidableEq, Repr

/-- The session id an operation acts on. -/
def RegistryOp.sessionId : RegistryOp → String
  | RegistryOp.store s _ _ _ => s
  | RegistryOp.delete s => s

/-- Runs one registry operation. -/
def RegistryOp.run : RegistryOp → SyncMap → SyncMap
  | RegistryOp.store s u k t, m => (NewZabbixClient s u k t m).2
  | RegistryOp.delete s, m => DeleteZabbixClient m s

/-- Runs a sequence of registry operations, first to last. -/
def runOps : List RegistryOp → SyncMap → SyncMap
  | [], m => m
  | op :: ops, m => runOps ops (op.run m)

/-! ## The backend call `ZabbixClient.Call` -/

/-- The struct `ZabbixRequest`; `P` is the dynamic type of `Params`. -/
structure ZabbixRequest (P : Type) where
  JSONRPC : String
  Method : String
  Params : P
  ID : Int

/-- The struct `ZabbixError`. -/
structure ZabbixError where
  Code : Int
  Message : String
  Data : String
  deriving DecidableEq, Repr

/-- A `json.RawMessage`: the bytes of a JSON value, left undecoded. -/
abbrev RawMessage := String

/-- The struct `ZabbixResponse`; a nil `Result` or `Error` is `none`. -/
structure ZabbixResponse where
  JSONRPC : String
  Result : Option RawMessage
  Error : Option ZabbixError
  ID : Int
  deriving DecidableEq, Repr

/-- An `error` value returned by `Call`: one built by `fmt.Errorf` (its text),
or a `*ZabbixError`. -/
inductive GoError where
  | errorf (msg : String)
  | zabbix (e : ZabbixError)
  deriving DecidableEq, Repr

/-- An `http.Header` as a list of canonical keys with their values. -/
abbrev Header := List (String × List String)

/-- The function `validHeaderFieldByte` of `net/textproto`: the token characters. -/
def validHeaderFieldByte (c : Char) : Bool :=
  c.isAlphanum ||
    decide (c.toNat ∈ [33, 35, 36, 37, 38, 39, 42, 43, 45, 46, 94, 95, 96, 124, 126])

/-- Upper-cases the first letter and each letter after a dash, lower-cases the rest. -/
def canonicalLetters : Bool → List Char → List Char
  | _, [] => []
  | upper, c :: cs =>
    let c1 :=
      if upper && c.isLower then c.toUpper
      else if !upper && c.isUpper then c.toLower
      else c
    c1 :: canonicalLetters (c1 == '-') cs

/-- The function `textproto.CanonicalMIMEHeaderKey`, which `Header.Get` and
`Header.Set` apply to their key: a key with a character outside the token
characters is left as it is. -/
def CanonicalMIMEHeaderKey (s : String) : String :=
  if s.data.all validHeaderFieldByte then String.mk (canonicalLetters true s.data) else s

/-- The values stored under a canonical key. -/
def Header.values : Header → String → Option (List String)
  | [], _ => none
  | (k, vs) :: rest, key => if k = key then some vs else Header.values rest key

/-- Removes the entry of a canonical key. -/
def Header.remove : Header → String → Header
  | [], _ => []
  | (k, vs) :: rest, key =>
    if k = key then Header.remove rest key else (k, vs) :: Header.remove rest key

/-- The method `Header.Get`: the first value of the key, or the empty string. -/
def Header.Get (h : Header) (key : String) : String :=
  match Header.values h (CanonicalMIMEHeaderKey key) with
  | some (v :: _) => v
  | _ => ""

/-- The method `Header.Set`: replaces the values of the key by the one value. -/
def Header.Set (h : Header) (key value : String) : Header :=
  (CanonicalMIMEHeaderKey key, [value]) :: Header.remove h (CanonicalMIMEHeaderKey key)

/-- Whether the header map has an entry for the key. -/
def Header.Has (h : Header) (key : String) : Bool :=
  (Header.values h (CanonicalMIMEHeaderKey key)).isSome

/-- The outbound `http.Request` built by `http.NewRequest`. -/
structure HTTPRequest where
  Method : String
  URL : String
  Header : Header
  Body : String
  deriving DecidableEq, Repr

/-- The library calls of `Call`, as parameters: `json.Marshal` of the request,
the validation of `http.NewRequest` (its error, if any, for a method and URL),
`HTTPClient.Do` followed by `io.ReadAll` of the response body (outer error: the
request failed; inner error: the body could not be read), and `json.Unmarshal`
of the body into a `ZabbixResponse`. -/
structure Backend (P : Type) where
  Marshal : ZabbixRequest P → Except String String
  NewRequestError : String → String → Option String
  Do : HTTPRequest → Except String (Except String String)
  Unmarshal : String → Except String ZabbixResponse

/-- What one run of `Call` does: the request value it serialises, the HTTP
request it hands to `HTTPClient.Do` (none when it returns before that), and
the pair it returns. -/
structure CallOutcome (P : Type) where
  request : ZabbixRequest P
  sent : Option HTTPRequest
  result : Option RawMessage
  err : Option GoError

/-- The method `ZabbixClient.Call`. -/
def ZabbixClient.Call {P : Type} (b : Backend P) (c : ZabbixClient) (method : String)
    (params : P) : CallOutcome P :=
  let request : ZabbixRequest P :=
    { JSONRPC := "2.0", Method := method, Params := params, ID := 1 }
  match b.Marshal request with
  | Except.error err =>
    { request := request, sent := none, result := none,
      err := some (GoError.errorf ("failed to marshal request: " ++ err)) }
  | Except.ok requestBody =>
    match b.NewRequestError "POST" c.URL with
    | some err =>
      { request := request, sent := none, result := none,
        err := some (GoError.errorf ("failed to create request: " ++ err)) }
    | none =>
      let req : HTTPRequest := { Method := "POST", URL := c.URL, Header := [], Body := requestBody }
      let req := { req with Header := req.Header.Set "Content-Type" "application/json-rpc" }
      let req :=
        if c.AuthToken ≠ "" then
          { req with Header := req.Header.Set "Authorization" ("Bearer " ++ c.AuthToken) }
        else req
      match b.Do req with
      | Except.error err =>
        { request := request, sent := some req, result := none,
          err := some (GoError.errorf ("failed to make request: " ++ err)) }
      | Except.ok (Except.error err) =>
        { request := request, sent := some req, result := none,
          err := some (GoError.errorf ("failed to read response: " ++ err)) }
      | Except.ok (Except.ok body) =>
        match b.Unmarshal body with
        | Except.error err =>
          { request := request, sent := some req, result := none,
            err := some (GoError.errorf ("failed to unmarshal response: " ++ err)) }
        | Except.ok zabbixResp =>
          match zabbixResp.Error with
          | some e =>
            { request := request, sent := some req, result := none, err := some (GoError.zabbix e) }
          | none =>
            { request := request, sent := some req, result := zabbixResp.Result, err := none }

/-! ## `middleware.go` -/

def CORSModeStrict : String := "strict"
def CORSModeDevelopment : String := "development"
def CORSModeDisabled : String := "disabled"

/-- The struct `CORSConfig`; a `CORSMode` is a string. -/
structure CORSConfig where
  Mode : String
  AllowedOrigins : List String
  deriving DecidableEq, Repr

/-- The function `unicode.IsSpace`. -/
def isSpace (c : Char) : Bool :=
  let n := c.toNat
  (9 ≤ n && n ≤ 13) || n = 32 || n = 133 || n = 160 || n = 5760 ||
    (8192 ≤ n && n ≤ 8202) || n = 8232 || n = 8233 || n = 8239 || n = 8287 || n = 12288

/-- The function `strings.TrimSpace`, on the characters of a string. -/
def trimSpaceChars (cs : List Char) : List Char :=
  ((cs.dropWhile isSpace).reverse.dropWhile isSpace).reverse

/-- The function `strings.TrimSpace`. -/
def TrimSpace (s : String) : String :=
  String.mk (trimSpaceChars s.data)

/-- The fields of a character list between occurrences of the separator: one
more field than there are separators. -/
def splitChars (sep : Char) : List Char → List (List Char)
  | [] => [[]]
  | c :: cs =>
    if c = sep then [] :: splitChars sep cs
    else
      match splitChars sep cs with
      | [] => [[c]]
      | field :: fields => (c :: field) :: fields

/-- The call `strings.Split(s, ",")`. -/
def SplitComma (s : String) : List String :=
  (splitChars ',' s.data).map String.mk

/-- The function `GetCORSConfig`. -/
def GetCORSConfig (env : Env) : CORSConfig :=
  let mode := getEnv env "MCP_CORS_MODE" "strict"
  let originsStr := getEnv env "MCP_ALLOWED_ORIGINS" ""
  let origins := if originsStr ≠ "" then (SplitComma originsStr).map TrimSpace else []
  { Mode := mode, AllowedOrigins := origins }

/-- A `*log.Logger` of logrus: its level (Panic 0, Fatal 1, Error 2, Warn 3,
Info 4, Debug 5, Trace 6). -/
structure Logger where
  Level : Nat
  deriving DecidableEq, Repr

/-- An entry written to the log sink. -/
structure LogRecord where
  Level : Nat
  Message : String
  Fields : List (String × String)
  deriving DecidableEq, Repr

/-- An inbound `http.Request`: method, `URL.Path`, `URL.Query()`, remote
address, header and context. -/
structure Request where
  Method : String
  Path : String
  Query : List (String × List String)
  RemoteAddr : String
  Header : Header
  Ctx : Context
  deriving DecidableEq, Repr

/-- The state behind an `http.ResponseWriter`: the header map, the status
code once `WriteHeader` has been called, and the body written. -/
structure ResponseWriter where
  Header : Header
  Status : Option Nat
  Body : String
  deriving DecidableEq, Repr

/-- The method `ResponseWriter.WriteHeader`: only the first call takes effect. -/
def ResponseWriter.WriteHeader (w : ResponseWriter) (statusCode : Nat) : ResponseWriter :=
  match w.Status with
  | some _ => w
  | none => { w with Status := some statusCode }

/-- The method `ResponseWriter.Write`: writes status 200 first when no status
has been written. -/
def ResponseWriter.Write (w : ResponseWriter) (data : String) : ResponseWriter :=
  let w := w.WriteHeader 200
  { w with Body := w.Body ++ data }

/-- What serving a request acts on: the response writer and the log sink
(latest record first). -/
structure Exchange where
  w : ResponseWriter
  logs : List LogRecord
  deriving DecidableEq, Repr

/-- An `http.Handler`: `ServeHTTP(w, r)` as a function of the request on the exchange. -/
abbrev Handler := Request → Exchange → Exchange

/-- The method `url.Values.Get`: the first value of the key, or the empty string. -/
def QueryGet : List (String × List String) → String → String
  | [], _ => ""
  | (k, vs) :: rest, key =>
    if k = key then
      match vs with
      | v :: _ => v
      | [] => ""
    else QueryGet rest key

/-- The four `Header().Set` calls by which `CORSMiddleware` allows an origin. -/
def allowOrigin (h : Header) (origin : String) : Header :=
  let h := h.Set "Access-Control-Allow-Origin" origin
  let h := h.Set "Access-Control-Allow-Methods" "GET, POST, OPTIONS"
  let h := h.Set "Access-Control-Allow-Headers"
    "Content-Type, Authorization, X-Zabbix-Token, X-Zabbix-URL"
  h.Set "Access-Control-Allow-Credentials" "true"

/-- The loop of the strict case of `CORSMiddleware`: allows the origin at the
first allowed origin equal to it, and stops there. -/
def strictLoop (origin : String) : List String → Header → Header
  | [], h => h
  | allowed :: rest, h =>
    if origin = allowed then allowOrigin h origin else strictLoop origin rest h

/-- The function `CORSMiddleware`. -/
def CORSMiddleware (config : CORSConfig) (next : Handler) : Handler :=
  fun r x =>
    let origin := r.Header.Get "Origin"
    let header :=
      if config.Mode = CORSModeDisabled then x.w.Header
      else if config.Mode = CORSModeDevelopment then allowOrigin x.w.Header origin
      else if config.Mode = CORSModeStrict then strictLoop origin config.AllowedOrigins x.w.Header
      else x.w.Header
    let x := { x with w := { x.w with Header := header } }
    if r.Method = "OPTIONS" then
      { x with w := x.w.WriteHeader 200 }
    else
      next r x

/-- The function `ZabbixContextMiddleware`. -/
def ZabbixContextMiddleware (_logger : Logger) (next : Handler) : Handler :=
  fun r x =>
    let ctx := r.Ctx
    let url := r.Header.Get ZabbixHeaderURL
    let ctx := if url ≠ "" then ctx.WithValue ZabbixURL (Any.str url) else ctx
    let token := r.Header.Get ZabbixHeaderToken
    let ctx := if token ≠ "" then ctx.WithValue ZabbixToken (Any.str token) else ctx
    let url := QueryGet r.Query "ZABBIX_URL"
    let ctx := if url ≠ "" then ctx.WithValue ZabbixURL (Any.str url) else ctx
    next { r with Ctx := ctx } x

/-- The level `log.DebugLevel` of logrus. -/
def DebugLevel : Nat := 5

/-- The function `LoggingMiddleware`: a debug record (written when the
logger level admits debug records), then the next handler. -/
def LoggingMiddleware (logger : Logger) (next : Handler) : Handler :=
  fun r x =>
    let record : LogRecord :=
      { Level := DebugLevel, Message := "HTTP request",
        Fields := [("method", r.Method), ("path", r.Path), ("remote", r.RemoteAddr)] }
    let x := if DebugLevel ≤ logger.Level then { x with logs := record :: x.logs } else x
    next r x

/-- The function `BuildMiddlewareStack`. -/
def BuildMiddlewareStack (env : Env) (handler : Handler) (logger : Logger) : Handler :=
  let corsConfig := GetCORSConfig env
  let handler := LoggingMiddleware logger handler
  let handler := ZabbixContextMiddleware logger handler
  let handler := CORSMiddleware corsConfig handler
  handler

/-- The request that `Call` builds once the envelope is serialised. -/
def builtRequest (c : ZabbixClient) (requestBody : String) : HTTPRequest :=
  if c.AuthToken ≠ "" then
    { Method := "POST", URL := c.URL,
      Header := Header.Set (Header.Set [] "Content-Type" "application/json-rpc")
        "Authorization" ("Bearer " ++ c.AuthToken),
      Body := requestBody }
  else
    { Method := "POST", URL := c.URL,
      Header := Header.Set [] "Content-Type" "application/json-rpc", Body := requestBody }

/-! ## Session handlers of `client.go` -/

/-- The function `GetZabbixClientFromContext`; `session` is what
`server.ClientSessionFromContext(ctx)` returns (`none` for nil). -/
def GetZabbixClientFromContext (env : Env) (ctx : Context) (session : Option ClientSession)
    (activeClients : SyncMap) : Except String ZabbixClient × SyncMap :=
  match session with
  | none => (Except.error "no active session", activeClients)
  | some session =>
    match GetZabbixClient activeClients session.SessionID with
    | some client => (Except.ok client, activeClients)
    | none => CreateZabbixClientForSession env ctx session activeClients

/-- The function `NewSessionHandler`: the error of a failed creation is logged
and not returned. -/
def NewSessionHandler (env : Env) (ctx : Context) (session : ClientSession)
    (activeClients : SyncMap) : SyncMap :=
  match CreateZabbixClientForSession env ctx session activeClients with
  | (Except.error _, activeClients) => activeClients
  | (Except.ok _, activeClients) => activeClients

/-- The function `EndSessionHandler`. -/
def EndSessionHandler (_ctx : Context) (session : ClientSession) (activeClients : SyncMap) :
    SyncMap :=
  DeleteZabbixClient activeClients session.SessionID

/-! ## `main.go`: the server and its sessions -/

/-- A session hook of an MCP server, acting on the registry. -/
abbrev SessionHook := Env → Context → ClientSession → SyncMap → SyncMap

/-- The part of a `server.MCPServer` (library `mcp-go`) that concerns sessions:
name, version, the tool capability, and the hooks it fires when a session is
registered and when it is unregistered. -/
structure MCPServer where
  Name : String
  Version : String
  ToolCapabilities : Option Bool
  OnRegisterSession : List SessionHook
  OnUnregisterSession : List SessionHook

/-- A `server.ServerOption`. -/
abbrev ServerOption := MCPServer → MCPServer

/-- The option `server.WithToolCapabilities`. -/
def WithToolCapabilities (listChanged : Bool) : ServerOption :=
  fun s => { s with ToolCapabilities := some listChanged }

/-- The option `server.WithHooks`, for hooks on session registration and
unregistration. -/
def WithHooks (onRegister onUnregister : List SessionHook) : ServerOption :=
  fun s => { s with OnRegisterSession := s.OnRegisterSession ++ onRegister,
                    OnUnregisterSession := s.OnUnregisterSession ++ onUnregister }

/-- The function `server.NewMCPServer`: a server without hooks, to which the
options are applied in order. -/
def NewMCPServer (name version : String) (opts : List ServerOption) : MCPServer :=
  opts.foldl (fun s opt => opt s)
    { Name := name, Version := version, ToolCapabilities := none,
      OnRegisterSession := [], OnUnregisterSession := [] }

/-- The function `NewServer` of `main.go`. -/
def NewServer (ver : String) (opts : List ServerOption) : MCPServer :=
  let defaultOpts : List ServerOption := [WithToolCapabilities true]
  let allOpts := defaultOpts ++ opts
  let mcpServer := NewMCPServer "zabbix-mcp-server" ver allOpts
  mcpServer

/-- What the HTTP transport does with a session: it accepts it, runs a tool
call of it (every tool handler starts with `GetZabbixClientFromContext`), or
sees it disconnect. -/
inductive TransportEvent where
  | accept (session : ClientSession) (ctx : Context)
  | toolCall (session : ClientSession) (ctx : Context)
  | disconnect (session : ClientSession) (ctx : Context)
  deriving DecidableEq, Repr

/-- Runs hooks in order. -/
def runHooks (hooks : List SessionHook) (env : Env) (ctx : Context) (session : ClientSession)
    (activeClients : SyncMap) : SyncMap :=
  hooks.foldl (fun m hook => hook env ctx session m) activeClients

/-- The effect of one transport event on the registry: registration and
unregistration fire the hooks of the server, a tool call looks up or creates
the client of the session. -/
def MCPServer.handle (srv : MCPServer) (env : Env) : TransportEvent → SyncMap → SyncMap
  | TransportEvent.accept session ctx, m => runHooks srv.OnRegisterSession env ctx session m
  | TransportEvent.toolCall session ctx, m =>
    (GetZabbixClientFromContext env ctx (some session) m).2
  | TransportEvent.disconnect session ctx, m =>
    runHooks srv.OnUnregisterSession env ctx session m

/-- The effect of a sequence of transport events, first to last. -/
def MCPServer.serve (srv : MCPServer) (env : Env) : List TransportEvent → SyncMap → SyncMap
  | [], m => m
  | ev :: evs, m => MCPServer.serve srv env evs (srv.handle env ev m)

/-! ## `main.go`: running and stopping the HTTP server -/

/-- What ends the wait of `httpServerInit`: an error of `ListenAndServe`, or a
signal, after which `srv.Shutdown` runs under the 30 second deadline and
returns nil (`none`: the requests in flight finished in time) or an error (the
deadline expired first). -/
inductive ServerEvent where
  | serverError (err : String)
  | signal (sig : String) (shutdown : Option String)
  deriving DecidableEq, Repr

/-- The function `httpServerInit`: the error it returns (`none` for nil). -/
def httpServerInit (ev : ServerEvent) : Option String :=
  match ev with
  | ServerEvent.serverError err => some ("server error: " ++ err)
  | ServerEvent.signal _ shutdown =>
    match shutdown with
    | some err => some ("server shutdown error: " ++ err)
    | none => none

/-- The function `runHTTPServer`. -/
def runHTTPServer (ev : ServerEvent) : Option String :=
  httpServerInit ev

/-- How the process ends: its exit code, and the message of the fatal log
record when it ended by a `Fatal` call (which logs and calls `os.Exit(1)`). -/
structure ProcessExit where
  Code : Nat
  Fatal : Option String
  deriving DecidableEq, Repr

/-- The `Run` of the `streamable-http` command in `main`, followed by the
return of `main`: `logFileErr` and `loggerErr` are the errors of reading the
log-file flag and of `initLogger`. -/
def streamableHTTPRun (logFileErr loggerErr : Option String) (ev : ServerEvent) : ProcessExit :=
  match logFileErr with
  | some _ => { Code := 1, Fatal := some "Failed to get log file:" }
  | none =>
    match loggerErr with
    | some _ => { Code := 1, Fatal := some "Failed to initialize logger:" }
    | none =>
      match runHTTPServer ev with
      | some _ => { Code := 1, Fatal := some "Failed to run HTTP server" }
      | none => { Code := 0, Fatal := none }

/-! ## `middleware.go`: health check and environment helper -/

/-- The body that `HealthHandler` writes. -/
def healthBody : String := "\x7b\"status\": \"healthy\"\x7d"

/-- The function `HealthHandler`. -/
def HealthHandler (_logger : Logger) : Handler :=
  fun _ x =>
    let w := { x.w with Header := x.w.Header.Set "Content-Type" "application/json" }
    let w := w.WriteHeader 200
    let w := w.Write healthBody
    { x with w := w }

/-- The function `http.NotFound`, which a `ServeMux` runs for a path without a route. -/
def NotFound : Handler :=
  fun _ x =>
    let h := x.w.Header.Set "Content-Type" "text/plain; charset=utf-8"
    let h := h.Set "X-Content-Type-Options" "nosniff"
    let w := ResponseWriter.WriteHeader { x.w with Header := h } 404
    { x with w := w.Write "404 page not found\n" }

/-- The `http.ServeMux` that `httpServerInit` builds: "/health" is routed to
`HealthHandler`, the endpoint path to the middleware stack around the MCP
handler (the pattern "/" matches every other path), and any other path is not
found. Registering the endpoint path "/health" a second time panics (`none`). -/
def httpServerMux (env : Env) (endpointPath : String) (httpServer : Handler)
    (logger : Logger) : Option Handler :=
  if endpointPath = "/health" then none
  else
    some (fun r x =>
      if r.Path = "/health" then HealthHandler logger r x
      else if r.Path = endpointPath ∨ endpointPath = "/" then
        BuildMiddlewareStack env httpServer logger r x
      else NotFound r x)

/-- The call `os.Getenv(key)`: the value of the variable, or the empty string
when it is not set. -/
def Getenv (env : Env) (key : String) : String :=
  match LookupEnv env key with
  | some value => value
  | none => ""

/-- The function `GetEnvWithFallback`. -/
def GetEnvWithFallback (env : Env) (key fallback : String) : String :=
  let value := Getenv env key
  if value ≠ "" then value else fallback

/-! ## Tool handlers: arguments and id lists -/

/-- A value of a tool-call argument, an `interface{}` decoded from JSON: a
string, a number (a `float64`, taken as the rational it denotes), a boolean,
or a value of another type. -/
inductive ArgValue where
  | str (s : String)
  | num (v : ℚ)
  | bool (b : Bool)
  | other
  deriving DecidableEq, Repr

/-- The arguments of a tool call as a `map[string]interface{}`. -/
abbrev Arguments := List (String × ArgValue)

/-- The map index `args[key]`: the value of the key, or nil. -/
def Arguments.get : Arguments → String → Option ArgValue
  | [], _ => none
  | (k, v) :: rest, key => if k = key then some v else Arguments.get rest key

/-- The checked type assertion `v.(string)` on an argument. -/
def ArgValue.asString : Option ArgValue → String × Bool
  | some (ArgValue.str s) => (s, true)
  | _ => ("", false)

/-- The checked type assertion `v.(float64)` on an argument. -/
def ArgValue.asFloat : Option ArgValue → ℚ × Bool
  | some (ArgValue.num v) => (v, true)
  | _ => (0, false)

/-- The checked type assertion `v.(bool)` on an argument. -/
def ArgValue.asBool : Option ArgValue → Bool × Bool
  | some (ArgValue.bool b) => (b, true)
  | _ => (false, false)

/-- The conversion `int(v)` of a `float64`: the fraction is discarded
(truncation towards zero). -/
def truncate (v : ℚ) : Int :=
  if 0 ≤ v then ⌊v⌋ else -⌊-v⌋

/-- How far a tool handler gets before its backend call: it returns a tool
error, or it calls the backend with a method and parameters. -/
inductive HandlerStep (P : Type) where
  | toolError (msg : String)
  | call (method : String) (params : P)
  deriving DecidableEq, Repr

/-- Trims the characters that satisfy `p` from both ends, as the two index
loops `for start < end && p(s[start])` and `for end > start && p(s[end-1])` do. -/
def trimChars (p : Char → Bool) (cs : List Char) : List Char :=
  ((cs.dropWhile p).reverse.dropWhile p).reverse

/-- The function `trim` of the packages `triggers`, `templates` and `items`
(the same text in each): trims the character ' '. -/
def trim (s : String) : String :=
  String.mk (trimChars (fun c => c = ' ') s.data)

/-- The loop of `splitAndTrim` in the packages `triggers`, `templates` and
`items`: `field` holds the characters of `s[start:i]`; at a ',' and at the end
the trimmed field is appended when it is not empty. -/
def splitTrimLoop : List Char → List Char → List String → List String
  | [], field, result =>
    let t := trim (String.mk field)
    if t ≠ "" then result ++ [t] else result
  | c :: cs, field, result =>
    if c = ',' then
      let t := trim (String.mk field)
      if t ≠ "" then splitTrimLoop cs [] (result ++ [t]) else splitTrimLoop cs [] result
    else splitTrimLoop cs (field ++ [c]) result

/-- The function `splitAndTrim` of package `triggers`. -/
def triggers.splitAndTrim (s : String) : List String :=
  splitTrimLoop s.data [] []

/-- The function `splitAndTrim` of package `templates` (the text of the one
in `triggers`). -/
def templates.splitAndTrim (s : String) : List String :=
  splitTrimLoop s.data [] []

/-- The function `splitAndTrim` of package `items` (the text of the one in
`triggers`). -/
def items.splitAndTrim (s : String) : List String :=
  splitTrimLoop s.data [] []

/-! ## `utils/helpers.go` and `hosts/get_hosts.go`: splitters -/

/-- The loop `for _, part := range parts` shared by the splitters built on a
split function and a trim function: the trimmed part is appended when it is
not empty. -/
def appendTrimmed (trimFn : String → String) : List String → List String → List String
  | [], result => result
  | part :: rest, result =>
    let trimmed := trimFn part
    if trimmed ≠ "" then appendTrimmed trimFn rest (result ++ [trimmed])
    else appendTrimmed trimFn rest result

/-- The function `SplitAndTrim` of package `utils`. -/
def utils.SplitAndTrim (s : String) : List String :=
  if s = "" then []
  else appendTrimmed TrimSpace (SplitComma s) []

/-- The call `strings.Join(parts, ",")`. -/
def JoinComma (parts : List String) : String :=
  String.mk (List.intercalate [','] (parts.map String.data))

/-- The loop of `splitString` in package `hosts`, for a separator that is not
empty: `skip` counts the characters of a separator just matched that the index
still passes over, `field` holds the characters of `s[start:i]`. -/
def splitStringLoop (sep : List Char) : List Char → Nat → List Char → List String → List String
  | [], _, field, result => result ++ [String.mk field]
  | _ :: cs, skip + 1, field, result => splitStringLoop sep cs skip field result
  | c :: cs, 0, field, result =>
    if sep.isPrefixOf (c :: cs) then
      splitStringLoop sep cs (sep.length - 1) [] (result ++ [String.mk field])
    else splitStringLoop sep cs 0 (field ++ [c]) result

/-- The function `splitString` of package `hosts`. -/
def hosts.splitString (s sep : String) : List String :=
  splitStringLoop sep.data s.data 0 [] []

/-- The function `trimSpace` of package `hosts`: trims ' ' and the tab. -/
def hosts.trimSpace (s : String) : String :=
  String.mk (trimChars (fun c => c = ' ' || c = '\t') s.data)

/-- The function `splitAndTrim` of package `hosts`. -/
def hosts.splitAndTrim (s : String) : List String :=
  appendTrimmed hosts.trimSpace (hosts.splitString s ",") []

/-! ## `templates/unlink_template.go` -/

/-- A value in the `map[string]interface{}` of parameters: a string, or a list
of string maps. -/
inductive ParamValue where
  | str (s : String)
  | maps (l : List (List (String × String)))
  deriving DecidableEq, Repr

/-- The assignment `params[key] = value` on a map kept as a list of entries. -/
def setParam : List (String × ParamValue) → String → ParamValue → List (String × ParamValue)
  | [], key, value => [(key, value)]
  | (k, v) :: rest, key, value =>
    if k = key then (key, value) :: rest else (k, v) :: setParam rest key value

/-- The function `unlinkTemplateHandler` up to its backend call; `clientErr` is
the error of `GetZabbixClientFromContext`, `arguments` the arguments when they
are a non-nil map. -/
def unlinkTemplateHandler (clientErr : Option String) (arguments : Option Arguments) :
    HandlerStep (List (String × ParamValue)) :=
  match clientErr with
  | some err => HandlerStep.toolError ("Failed: " ++ err)
  | none =>
    match arguments with
    | none => HandlerStep.toolError "Missing arguments"
    | some args =>
      let hostid := (ArgValue.asString (args.get "hostid")).1
      let templateidsStr := (ArgValue.asString (args.get "templateids")).1
      if hostid = "" ∨ templateidsStr = "" then
        HandlerStep.toolError "hostid and templateids required"
      else
        let templates : List (List (String × String)) :=
          (templates.splitAndTrim templateidsStr).map (fun tid => [("templateid", tid)])
        let params : List (String × ParamValue) := [("hostid", ParamValue.str hostid)]
        let (clear, ok) := ArgValue.asBool (args.get "clear")
        let params :=
          if ok = true ∧ clear = true then
            setParam params "templates_clear" (ParamValue.maps templates)
          else
            setParam params "templates_clear" (ParamValue.maps templates)
        HandlerStep.call "host.update" params

/-! ## `problems/get_problems.go` -/

/-- The value of a run of decimal digits. -/
def digitsValue (cs : List Char) : Nat :=
  cs.foldl (fun n c => 10 * n + (c.toNat - 48)) 0

/-- The call `fmt.Sscanf(s, "%d", &v)` on a string without leading white
space: the integer it stores, or `none` when it fails and stores nothing. It
reads an optional sign and the longest run of digits and underscores; it
fails when that run is empty, holds an underscore, or is out of the range of
`int64`; what follows the run is not read. -/
def scanInt (cs : List Char) : Option Int :=
  let signed : Bool × List Char :=
    match cs with
    | '+' :: rest => (false, rest)
    | '-' :: rest => (true, rest)
    | _ => (false, cs)
  let tok := signed.2.takeWhile (fun c => c.isDigit || c = '_')
  if tok = [] then none
  else if tok.any (fun c => c = '_') then none
  else
    let v : Int := if signed.1 then -(digitsValue tok : Int) else (digitsValue tok : Int)
    if -9223372036854775808 ≤ v ∧ v ≤ 9223372036854775807 then some v else none

/-- The loop of `parseSeverities` over the parts of the string. -/
def parseSeveritiesLoop : List String → List Int → List Int
  | [], result => result
  | part :: rest, result =>
    let trimmed := TrimSpace part
    if trimmed ≠ "" then
      let severity : Int :=
        match scanInt trimmed.data with
        | some v => v
        | none => 0
      if 0 ≤ severity ∧ severity ≤ 5 then parseSeveritiesLoop rest (result ++ [severity])
      else parseSeveritiesLoop rest result
    else parseSeveritiesLoop rest result

/-- The function `parseSeverities`. -/
def parseSeverities (s : String) : List Int :=
  parseSeveritiesLoop (SplitComma s) []

/-! ## `items/get_history.go` -/

/-- The struct `HistoryGetParams`. -/
structure HistoryGetParams where
  Output : String
  ItemIDs : List String
  HostIDs : List String
  History : Int
  TimeFrom : Int
  TimeTill : Int
  SortField : List String
  SortOrder : List String
  Limit : Int
  deriving DecidableEq, Repr

/-- The `limit` member of the serialised parameters: the tag `omitempty`
leaves the member out when `Limit` is 0. -/
def HistoryGetParams.limitMember (p : HistoryGetParams) : Option Int :=
  if p.Limit = 0 then none else some p.Limit

/-- The function `getHistoryHandler` up to its backend call; `clientErr` is
the error of `GetZabbixClientFromContext`, `now` is `time.Now().Unix()`, and
`arguments` the arguments when they are a non-nil map. -/
def getHistoryHandler (clientErr : Option String) (now : Int) (arguments : Option Arguments) :
    HandlerStep HistoryGetParams :=
  match clientErr with
  | some err => HandlerStep.toolError ("Failed to get Zabbix client: " ++ err)
  | none =>
    let params : HistoryGetParams :=
      { Output := "extend", ItemIDs := [], HostIDs := [], History := 0,
        TimeFrom := now - 3600, TimeTill := now, SortField := ["clock"],
        SortOrder := ["DESC"], Limit := 10 }
    match arguments with
    | none => HandlerStep.call "history.get" params
    | some args =>
      let (v, ok) := ArgValue.asString (args.get "itemids")
      if ok = true ∧ v ≠ "" then
        let params := { params with ItemIDs := items.splitAndTrim v }
        let (v, ok) := ArgValue.asFloat (args.get "history_type")
        let params := if ok = true then { params with History := truncate v } else params
        let (v, ok) := ArgValue.asFloat (args.get "time_from")
        let params :=
          if ok = true ∧ v > 0 then { params with TimeFrom := truncate v } else params
        let (v, ok) := ArgValue.asFloat (args.get "time_till")
        let params :=
          if ok = true ∧ v > 0 then { params with TimeTill := truncate v } else params
        let (v, ok) := ArgValue.asFloat (args.get "limit")
        let params :=
          if ok = true ∧ v > 0 then
            let v := if v > 1000 then 1000 else v
            { params with Limit := truncate v }
          else params
        HandlerStep.call "history.get" params
      else
        HandlerStep.toolError "itemids is required"

/-! ## `main.go` and `init.go`: the endpoint path -/

def DefaultBindAddress : String := "127.0.0.1"
def DefaultBindPort : String := "8080"
def DefaultEndPointPath : String := "/mcp"

/-- The elements of a path that `path.Clean` keeps, latest first: empty
elements and "." are dropped, ".." removes the element before it, is dropped
at the root of a rooted path, and is kept at the start of a path that is not
rooted. -/
def cleanElements (rooted : Bool) : List (List Char) → List (List Char) → List (List Char)
  | [], out => out
  | elem :: rest, out =>
    if elem = [] ∨ elem = ['.'] then cleanElements rooted rest out
    else if elem = ['.', '.'] then
      match out with
      | top :: below =>
        if top = ['.', '.'] then cleanElements rooted rest (elem :: out)
        else cleanElements rooted rest below
      | [] => if rooted then cleanElements rooted rest [] else cleanElements rooted rest [elem]
    else cleanElements rooted rest (elem :: out)

/-- The function `path.Clean`, on the characters of a path. -/
def cleanChars (path : List Char) : List Char :=
  match path with
  | [] => ['.']
  | c :: _ =>
    let rooted := decide (c = '/')
    let out := (cleanElements rooted (splitChars '/' path) []).reverse
    let body := List.intercalate ['/'] out
    if rooted then '/' :: body
    else if body = [] then ['.'] else body

/-- The function `path.Clean` of the Go library. -/
def Clean (path : String) : String :=
  String.mk (cleanChars path.data)

/-- A `cobra.Command`, as far as `getEndpointPath` reads it: the string flags
defined on it, each with its current value (the default, or the value given
on the command line). -/
structure Command where
  Flags : List (String × String)
  deriving DecidableEq, Repr

/-- The call `cmd.Flags().String(name, value, usage)`: defines a flag with its default. -/
def Command.defineString (cmd : Command) (name value : String) : Command :=
  { cmd with Flags := cmd.Flags ++ [(name, value)] }

/-- The call `cmd.Flags().GetString(name)`: the value of the flag and `true`,
or the empty string and `false` (an error) when the flag is not defined. -/
def Command.GetString (cmd : Command) (name : String) : String × Bool :=
  match cmd.Flags.lookup name with
  | some value => (value, true)
  | none => ("", false)

/-- A flag given on the command line: the value of a defined flag is replaced. -/
def Command.setFlag (cmd : Command) (name value : String) : Command :=
  { cmd with Flags := cmd.Flags.map (fun f => if f.1 = name then (name, value) else f) }

/-- The function `addCommonFlags` of `init.go`. -/
def addCommonFlags (cmd : Command) : Command :=
  let cmd := cmd.defineString "transport-host" DefaultBindAddress
  let cmd := cmd.defineString "transport-port" DefaultBindPort
  cmd.defineString "endpoint" DefaultEndPointPath

/-- The root command of `main`: its one flag is the persistent flag log-file. -/
def rootCmd : Command := { Flags := [("log-file", "")] }

/-- The commands stdio, streamable-http and http of `main`, each after
`addCommonFlags` (the persistent flag of the root command included). -/
def subCmd : Command := addCommonFlags { Flags := [("log-file", "")] }

/-- The function `getEndpointPath`. -/
def getEndpointPath (env : Env) (cmd : Option Command) : String :=
  let fromFlag : Option String :=
    match cmd with
    | some cmd =>
      let endpoint := (cmd.GetString "endpoint").1
      if endpoint ≠ "" then some (Clean ("/" ++ endpoint)) else none
    | none => none
  match fromFlag with
  | some path => path
  | none =>
    let endpoint := Getenv env "MCP_ENDPOINT"
    if endpoint ≠ "" then Clean ("/" ++ endpoint)
    else DefaultEndPointPath

/-! ## `docs/get_zabbix_docs.go`: searching the documentation -/

/-- The value of an integer expression in Go's 64-bit `int`: the result wraps
around on overflow. -/
def wrapInt (x : Int) : Int :=
  (x + 9223372036854775808) % 18446744073709551616 - 9223372036854775808

/-- The function `max` of `get_zabbix_docs.go`. -/
def goMax (a b : Int) : Int :=
  if a > b then a else b

/-- The function `min` of `get_zabbix_docs.go`. -/
def goMin (a b : Int) : Int :=
  if a < b then a else b

/-- The function `strings.Contains`, on characters. -/
def containsChars : List Char → List Char → Bool
  | [], substr => substr.isEmpty
  | c :: cs, substr => substr.isPrefixOf (c :: cs) || containsChars cs substr

/-- The function `strings.Contains`. -/
def Contains (s substr : String) : Bool :=
  containsChars s.data substr.data

/-- The function `strings.ToLower`; `lower` is `unicode.ToLower` on one character. -/
def ToLower (lower : Char → Char) (s : String) : String :=
  String.mk (s.data.map lower)

/-- The text that the loop `for j := start; j < end; j++` of `searchInDoc`
writes for line `j` of the snippet of the match at line `i`. -/
def snippetLine (lines : List String) (i j : Int) : String :=
  if j = i then ">>> " ++ lines.getD j.toNat "" ++ " <<<\n"
  else lines.getD j.toNat "" ++ "\n"

/-- The loop `for j := start; j < end; j++` of `searchInDoc`, with the number
of iterations left. -/
def snippetLoop (lines : List String) (i : Int) : Nat → Int → String → String
  | 0, _, snippet => snippet
  | left + 1, j, snippet => snippetLoop lines i left (j + 1) (snippet ++ snippetLine lines i j)

/-- The snippet that `searchInDoc` builds for a match at line `i`. -/
def searchSnippet (lines : List String) (i : Nat) (contextLines : Int) : String :=
  let start := goMax 0 (wrapInt (i - contextLines))
  let stop := goMin lines.length (wrapInt (wrapInt (i + contextLines) + 1))
  let snippet := "**Match at line " ++ toString (i + 1) ++ ":**\n```\n"
  let snippet := snippetLoop lines i (stop - start).toNat start snippet
  snippet ++ "```\n"

/-- The loop `for i, line := range lines` of `searchInDoc`, which ends after
the tenth result. -/
def searchLoop (lower : Char → Char) (lines : List String) (searchLower : String)
    (contextLines : Int) : List String → Nat → List String → List String
  | [], _, results => results
  | line :: rest, i, results =>
    if Contains (ToLower lower line) searchLower then
      let results := results ++ [searchSnippet lines i contextLines]
      if results.length ≥ 10 then results
      else searchLoop lower lines searchLower contextLines rest (i + 1) results
    else searchLoop lower lines searchLower contextLines rest (i + 1) results

/-- The function `searchInDoc`. -/
def searchInDoc (lower : Char → Char) (lines : List String) (searchTerm : String)
    (contextLines : Int) : List String :=
  searchLoop lower lines (ToLower lower searchTerm) contextLines lines 0 []

/-- The snippet that the description of the search promises for a match at
line `i` with `c` lines of context: the heading with the line number `i + 1`,
the lines `max(0, i - c)` to `min(n - 1, i + c)` in order, line `i` marked,
and the closing fence. -/
def snippetOfMatch (lines : List String) (c i : Nat) : String :=
  (List.range' (i - c) (min lines.length (i + c + 1) - (i - c))).foldl
      (fun (snippet : String) (j : Nat) => snippet ++ snippetLine lines (i : Int) (j : Int))
      ("**Match at line " ++ toString (i + 1) ++ ":**\n```\n")
    ++ "```\n"

/-- The result that the description of the search promises: the snippets of
the first 10 lines that contain the term without regard to case, in the order
of the document. -/
def searchResults (lower : Char → Char) (lines : List String) (searchTerm : String)
    (c : Nat) : List String :=
  (((lines.enum.filter
      (fun e => Contains (ToLower lower e.2) (ToLower lower searchTerm))).map
      (fun e => e.1)).take 10).map (snippetOfMatch lines c)

/-! ## Concrete backends used as examples -/

/-- A backend that answers every request with the given response body, decoded
as the given response. -/
def fixedBackend (body : String) (resp : ZabbixResponse) : Backend Unit :=
  { Marshal := fun _ => Except.ok "envelope",
    NewRequestError := fun _ _ => none,
    Do := fun _ => Except.ok (Except.ok body),
    Unmarshal := fun _ => Except.ok resp }

/-- A client with a token. -/
def exampleClient : ZabbixClient :=
  { URL := "http://zabbix.example/api_jsonrpc.php", AuthToken := "tok", SkipTLSVerify := false }

/-- The response to a call that the backend refuses. -/
def noPermissionsResponse : ZabbixResponse :=
  { JSONRPC := "2.0", Result := none,
    Error := some { Code := -32500, Message := "Application error.", Data := "No permissions" },
    ID := 1 }

/-- A response with a result whose identifier is 2. -/
def otherIdResponse : ZabbixResponse :=
  { JSONRPC := "2.0", Result := some "[]", Error := none, ID := 2 }

/-- A response with neither a result nor an error. -/
def emptyResponse : ZabbixResponse :=
  { JSONRPC := "2.0", Result := none, Error := none, ID := 1 }

/-- The backend `b` with the identifier of every response it decodes replaced. -/
def Backend.withResponseID {P : Type} (b : Backend P) (id : Int) : Backend P :=
  { b with Unmarshal := fun body =>
      match b.Unmarshal body with
      | Except.error err => Except.error err
      | Except.ok resp => Except.ok { resp with ID := id } }

/-- An endpoint handler that answers with status 200 and the body "ok". -/
def okEndpoint : Handler :=
  fun _ x => { x with w := (x.w.WriteHeader 200).Write "ok" }

/-- A logger at debug level. -/
def debugLogger : Logger := { Level := 5 }

/-- A fresh exchange: nothing written, nothing logged. -/
def freshExchange : Exchange :=
  { w := { Header := [], Status := none, Body := "" }, logs := [] }

/-- A request with the given method and `Origin` header. -/
def requestFrom (method origin : String) : Request :=
  { Method := method, Path := "/mcp", Query := [], RemoteAddr := "10.0.0.1:4000",
    Header := [("Origin", [origin])], Ctx := [] }

/-- The session hooks that call `NewSessionHandler` and `EndSessionHandler`. -/
def sessionHooks : ServerOption :=
  WithHooks [NewSessionHandler] [fun _ ctx session m => EndSessionHandler ctx session m]

/-- A session that is accepted, makes one tool call, and disconnects. -/
def oneSessionRun : List TransportEvent :=
  [TransportEvent.accept { SessionID := "s1" } [],
   TransportEvent.toolCall { SessionID := "s1" } [],
   TransportEvent.disconnect { SessionID := "s1" } []]

/-! ## Theorems: the session registry -/

theorem SyncMap.Load_Delete_same (m : SyncMap) (key : String) :
    SyncMap.Load (SyncMap.Delete m key) key = none := by
  induction m with
  | nil => rfl
  | cons e rest ih =>
    obtain ⟨k, v⟩ := e
    by_cases hk : k = key
    · simp [SyncMap.Delete, hk, ih]
    · simp [SyncMap.Delete, SyncMap.Load, hk, ih]

theorem SyncMap.Load_Delete_other (m : SyncMap) (key other : String) (h : other ≠ key) :
    SyncMap.Load (SyncMap.Delete m key) other = SyncMap.Load m other := by
  induction m with
  | nil => rfl
  | cons e rest ih =>
    obtain ⟨k, v⟩ := e
    by_cases hk : k = key
    · have hko : ¬ k = other := fun hc => h (hc ▸ hk)
      simp only [SyncMap.Delete, SyncMap.Load, if_pos hk, if_neg hko, ih]
    · by_cases ho : k = other
      · simp only [SyncMap.Delete, SyncMap.Load, if_neg hk, if_pos ho]
      · simp only [SyncMap.Delete, SyncMap.Load, if_neg hk, if_neg ho, ih]

theorem SyncMap.Load_Store_same (m : SyncMap) (key : String) (value : ZabbixClient) :
    SyncMap.Load (SyncMap.Store m key value) key = some value := by
  simp [SyncMap.Store, SyncMap.Load]

theorem SyncMap.Load_Store_other (m : SyncMap) (key other : String) (value : ZabbixClient)
    (h : other ≠ key) :
    SyncMap.Load (SyncMap.Store m key value) other = SyncMap.Load m other := by
  have hk : ¬ key = other := fun hc => h hc.symm
  simp [SyncMap.Store, SyncMap.Load, hk, SyncMap.Load_Delete_other m key other h]

theorem GetZabbixClient_eq_Load (m : SyncMap) (s : String) :
    GetZabbixClient m s = SyncMap.Load m s := by
  unfold GetZabbixClient
  cases SyncMap.Load m s <;> rfl

theorem GetZabbixClient_run_other (op : RegistryOp) (m : SyncMap) (s : String)
    (h : op.sessionId ≠ s) :
    GetZabbixClient (op.run m) s = GetZabbixClient m s := by
  cases op with
  | store k u skip t =>
    simp only [RegistryOp.sessionId] at h
    simp only [RegistryOp.run, NewZabbixClient, GetZabbixClient_eq_Load]
    exact SyncMap.Load_Store_other m k s _ (fun hc => h hc.symm)
  | delete k =>
    simp only [RegistryOp.sessionId] at h
    simp only [RegistryOp.run, DeleteZabbixClient, GetZabbixClient_eq_Load]
    exact SyncMap.Load_Delete_other m k s (fun hc => h hc.symm)

theorem GetZabbixClient_runOps_other (ops : List RegistryOp) (m : SyncMap) (s : String)
    (h : ∀ op ∈ ops, op.sessionId ≠ s) :
    GetZabbixClient (runOps ops m) s = GetZabbixClient m s := by
  induction ops generalizing m with
  | nil => rfl
  | cons op ops ih =>
    have h1 : op.sessionId ≠ s := h op (List.mem_cons_self _ _)
    have h2 : ∀ o ∈ ops, o.sessionId ≠ s := fun o ho => h o (List.mem_cons_of_mem _ ho)
    simp only [runOps]
    rw [ih (op.run m) h2, GetZabbixClient_run_other op m s h1]

/-- C1: after `NewZabbixClient` stores a client under session id `s`, the
client it returns is the one `GetZabbixClient s` returns, and `GetZabbixClient s`
keeps returning it across every sequence of stores and deletes on other
session ids; a later store under `s` replaces it and `DeleteZabbixClient s`
removes it. -/
theorem registry_get_returns_stored (m : SyncMap) (s zabbixURL : String) (skip : Bool)
    (authToken : String) (ops : List RegistryOp) (h : ∀ op ∈ ops, op.sessionId ≠ s) :
    (NewZabbixClient s zabbixURL skip authToken m).1
        = Except.ok { URL := zabbixURL, AuthToken := authToken, SkipTLSVerify := skip }
      ∧ GetZabbixClient (runOps ops (NewZabbixClient s zabbixURL skip authToken m).2) s
        = some { URL := zabbixURL, AuthToken := authToken, SkipTLSVerify := skip }
      ∧ (∀ (url2 : String) (skip2 : Bool) (token2 : String),
          GetZabbixClient (NewZabbixClient s url2 skip2 token2
              (runOps ops (NewZabbixClient s zabbixURL skip authToken m).2)).2 s
            = some { URL := url2, AuthToken := token2, SkipTLSVerify := skip2 })
      ∧ GetZabbixClient (DeleteZabbixClient
            (runOps ops (NewZabbixClient s zabbixURL skip authToken m).2) s) s = none := by
  refine ⟨rfl, ?_, ?_, ?_⟩
  · rw [GetZabbixClient_runOps_other ops _ s h, GetZabbixClient_eq_Load]
    exact SyncMap.Load_Store_same m s _
  · intro url2 skip2 token2
    rw [GetZabbixClient_eq_Load]
    exact SyncMap.Load_Store_same _ s _
  · rw [GetZabbixClient_eq_Load]
    exact SyncMap.Load_Delete_same _ s

/-- Witness of C1: a client stored under "s1" survives a store under "s2", a
delete of "s3" and a delete of "s2". -/
theorem registry_get_returns_stored_witness :
    (∀ op ∈ [RegistryOp.store "s2" "http://b/api" true "tb", RegistryOp.delete "s3",
        RegistryOp.delete "s2"], op.sessionId ≠ "s1")
      ∧ GetZabbixClient (runOps [RegistryOp.store "s2" "http://b/api" true "tb",
          RegistryOp.delete "s3", RegistryOp.delete "s2"]
          (NewZabbixClient "s1" "http://a/api" false "ta"
            [("s3", { URL := "http://c/api", AuthToken := "tc", SkipTLSVerify := false })]).2) "s1"
        = some { URL := "http://a/api", AuthToken := "ta", SkipTLSVerify := false } :=
  ⟨by decide,
   (registry_get_returns_stored
      [("s3", { URL := "http://c/api", AuthToken := "tc", SkipTLSVerify := false })]
      "s1" "http://a/api" false "ta"
      [RegistryOp.store "s2" "http://b/api" true "tb", RegistryOp.delete "s3",
        RegistryOp.delete "s2"] (by decide)).2.1⟩

/-! ## Theorems: credential resolution -/

theorem getEnv_of_lookup (env : Env) (key fallback value : String)
    (h : LookupEnv env key = some value) : getEnv env key fallback = value := by
  simp [getEnv, h]

theorem getEnv_of_unset (env : Env) (key fallback : String)
    (h : LookupEnv env key = none) : getEnv env key fallback = fallback := by
  simp [getEnv, h]

/-- The result of `CreateZabbixClientForSession` once URL and token are resolved. -/
theorem create_tail (s zabbixURL authToken : String) (skip : Bool) (m : SyncMap) :
    (match NewZabbixClient s zabbixURL skip authToken m with
      | (Except.error err, activeClients) =>
        ((Except.error ("failed to create Zabbix client: " ++ err) : Except String ZabbixClient),
          activeClients)
      | (Except.ok newClient, activeClients) => (Except.ok newClient, activeClients))
      = (Except.ok { URL := zabbixURL, AuthToken := authToken, SkipTLSVerify := skip },
          SyncMap.Store m s
            { URL := zabbixURL, AuthToken := authToken, SkipTLSVerify := skip }) := rfl

/-- C2: `CreateZabbixClientForSession` takes the token of the context when it
is a non-empty string, else the value of `ZABBIX_TOKEN` when non-empty; when
neither is a non-empty token it returns the error and no client, and the
registry it leaves is the one it found. -/
theorem create_token_first_match (env : Env) (ctx : Context) (session : ClientSession)
    (m : SyncMap) :
    (∀ t, ctx.Value ZabbixToken = some (Any.str t) → t ≠ "" →
        ∃ c, (CreateZabbixClientForSession env ctx session m).1 = Except.ok c
          ∧ c.AuthToken = t)
      ∧ ((∀ t, ctx.Value ZabbixToken = some (Any.str t) → t = "") →
          ∀ t, LookupEnv env ZabbixToken = some t → t ≠ "" →
            ∃ c, (CreateZabbixClientForSession env ctx session m).1 = Except.ok c
              ∧ c.AuthToken = t)
      ∧ ((∀ t, ctx.Value ZabbixToken = some (Any.str t) → t = "") →
          (∀ t, LookupEnv env ZabbixToken = some t → t = "") →
          CreateZabbixClientForSession env ctx session m
            = (Except.error "zabbix token not provided for session", m)) := by
  refine ⟨?_, ?_, ?_⟩
  · intro t ht hne
    simp only [CreateZabbixClientForSession, ht, stringAssert, create_tail]
    simp [hne]
  · intro hctx t ht hne
    have hassert : (stringAssert (ctx.Value ZabbixToken)).2 = false
        ∨ (stringAssert (ctx.Value ZabbixToken)).1 = "" := by
      cases hv : ctx.Value ZabbixToken with
      | none => left; rfl
      | some a =>
        cases a with
        | str u => right; simpa [stringAssert] using hctx u hv
        | other n => left; rfl
    simp only [CreateZabbixClientForSession, create_tail]
    simp [hassert, getEnv_of_lookup env ZabbixToken "" t ht, hne]
  · intro hctx henv
    have hassert : (stringAssert (ctx.Value ZabbixToken)).2 = false
        ∨ (stringAssert (ctx.Value ZabbixToken)).1 = "" := by
      cases hv : ctx.Value ZabbixToken with
      | none => left; rfl
      | some a =>
        cases a with
        | str u => right; simpa [stringAssert] using hctx u hv
        | other n => left; rfl
    have hget : getEnv env ZabbixToken "" = "" := by
      cases hl : LookupEnv env ZabbixToken with
      | none => exact getEnv_of_unset env _ _ hl
      | some v => rw [getEnv_of_lookup env _ _ v hl]; exact henv v hl
    simp only [CreateZabbixClientForSession, create_tail]
    simp [hassert, hget]

/-- Witness of C2: a context token wins over the environment, the environment
token is used when the context has none, and with neither the call fails and
leaves the registry as it was. -/
theorem create_token_first_match_witness :
    (∃ c, (CreateZabbixClientForSession [("ZABBIX_TOKEN", "envtok")]
          [("ZABBIX_TOKEN", Any.str "ctxtok")] { SessionID := "s1" } []).1 = Except.ok c
        ∧ c.AuthToken = "ctxtok")
      ∧ (∃ c, (CreateZabbixClientForSession [("ZABBIX_TOKEN", "envtok")]
          [("ZABBIX_TOKEN", Any.str "")] { SessionID := "s1" } []).1 = Except.ok c
        ∧ c.AuthToken = "envtok")
      ∧ CreateZabbixClientForSession [("ZABBIX_TOKEN", "")] [("ZABBIX_TOKEN", Any.other 0)]
          { SessionID := "s1" }
          [("s2", { URL := "http://b/api", AuthToken := "tb", SkipTLSVerify := false })]
        = (Except.error "zabbix token not provided for session",
          [("s2", { URL := "http://b/api", AuthToken := "tb", SkipTLSVerify := false })]) :=
  ⟨(create_token_first_match [("ZABBIX_TOKEN", "envtok")] [("ZABBIX_TOKEN", Any.str "ctxtok")]
      { SessionID := "s1" } []).1 "ctxtok" (by decide) (by decide),
   (create_token_first_match [("ZABBIX_TOKEN", "envtok")] [("ZABBIX_TOKEN", Any.str "")]
      { SessionID := "s1" } []).2.1
      (by intro t ht; simp [Context.Value, ZabbixToken] at ht; exact ht.symm)
      "envtok" (by decide) (by decide),
   (create_token_first_match [("ZABBIX_TOKEN", "")] [("ZABBIX_TOKEN", Any.other 0)]
      { SessionID := "s1" }
      [("s2", { URL := "http://b/api", AuthToken := "tb", SkipTLSVerify := false })]).2.2
      (by intro t ht; simp [Context.Value, ZabbixToken] at ht)
      (by intro t ht; simp [LookupEnv, ZabbixToken] at ht; exact ht.symm)⟩

theorem create_ok_URL (env : Env) (ctx : Context) (session : ClientSession) (m : SyncMap)
    (c : ZabbixClient) (h : (CreateZabbixClientForSession env ctx session m).1 = Except.ok c) :
    c.URL = (if (stringAssert (ctx.Value ZabbixURL)).2 = false
        ∨ (stringAssert (ctx.Value ZabbixURL)).1 = ""
      then getEnv env ZabbixURL DefaultZabbixURL else (stringAssert (ctx.Value ZabbixURL)).1) := by
  simp only [CreateZabbixClientForSession, create_tail] at h
  split_ifs at h with h1 h2 h3 <;> simp_all <;> (subst h; simp_all)

/-- C3: for every successful `CreateZabbixClientForSession`, a non-empty URL
string in the context is the URL of the client whatever the environment holds;
otherwise a `ZABBIX_URL` that is set in the environment gives the URL; with
neither, the URL is the default "http://127.0.0.1/api_jsonrpc.php". -/
theorem create_url_precedence (env : Env) (ctx : Context) (session : ClientSession)
    (m : SyncMap) (c : ZabbixClient)
    (hok : (CreateZabbixClientForSession env ctx session m).1 = Except.ok c) :
    (∀ u, ctx.Value ZabbixURL = some (Any.str u) → u ≠ "" → c.URL = u)
      ∧ ((∀ u, ctx.Value ZabbixURL = some (Any.str u) → u = "") →
          ∀ v, LookupEnv env ZabbixURL = some v → c.URL = v)
      ∧ ((∀ u, ctx.Value ZabbixURL = some (Any.str u) → u = "") →
          LookupEnv env ZabbixURL = none → c.URL = "http://127.0.0.1/api_jsonrpc.php") := by
  have hURL := create_ok_URL env ctx session m c hok
  have hassert : (∀ u, ctx.Value ZabbixURL = some (Any.str u) → u = "") →
      ((stringAssert (ctx.Value ZabbixURL)).2 = false
        ∨ (stringAssert (ctx.Value ZabbixURL)).1 = "") := by
    intro hctx
    cases hv : ctx.Value ZabbixURL with
    | none => left; rfl
    | some a =>
      cases a with
      | str u => right; simpa [stringAssert] using hctx u hv
      | other n => left; rfl
  refine ⟨?_, ?_, ?_⟩
  · intro u hu hne
    rw [hURL, hu]
    simp [stringAssert, hne]
  · intro hctx v hv
    rw [hURL, if_pos (hassert hctx)]
    exact getEnv_of_lookup env _ _ v hv
  · intro hctx hv
    rw [hURL, if_pos (hassert hctx)]
    exact getEnv_of_unset env _ _ hv

/-- Witness of C3: with a token in the environment the call succeeds, and a
URL in the context wins over `ZABBIX_URL`. -/
theorem create_url_precedence_witness :
    (CreateZabbixClientForSession [("ZABBIX_URL", "http://env/api"), ("ZABBIX_TOKEN", "tok")]
        [("ZABBIX_URL", Any.str "http://ctx/api")] { SessionID := "s1" } []).1
      = Except.ok { URL := "http://ctx/api", AuthToken := "tok", SkipTLSVerify := false }
    ∧ (∀ u, Context.Value [("ZABBIX_URL", Any.str "http://ctx/api")] ZabbixURL
          = some (Any.str u) → u ≠ "" →
        ({ URL := "http://ctx/api", AuthToken := "tok", SkipTLSVerify := false }
          : ZabbixClient).URL = u) :=
  ⟨by decide,
   (create_url_precedence [("ZABBIX_URL", "http://env/api"), ("ZABBIX_TOKEN", "tok")]
      [("ZABBIX_URL", Any.str "http://ctx/api")] { SessionID := "s1" } []
      { URL := "http://ctx/api", AuthToken := "tok", SkipTLSVerify := false } (by decide)).1⟩

/-! ## Theorems: the backend call -/


/-- The body of `Call`, with the request it builds named. -/
theorem Call_eq {P : Type} (b : Backend P) (c : ZabbixClient) (method : String)
    (params : P) :
    ZabbixClient.Call b c method params
      = (match b.Marshal { JSONRPC := "2.0", Method := method, Params := params, ID := 1 } with
        | Except.error err =>
          { request := { JSONRPC := "2.0", Method := method, Params := params, ID := 1 },
            sent := none, result := none,
            err := some (GoError.errorf ("failed to marshal request: " ++ err)) }
        | Except.ok requestBody =>
          match b.NewRequestError "POST" c.URL with
          | some err =>
            { request := { JSONRPC := "2.0", Method := method, Params := params, ID := 1 },
              sent := none, result := none,
              err := some (GoError.errorf ("failed to create request: " ++ err)) }
          | none =>
            match b.Do (builtRequest c requestBody) with
            | Except.error err =>
              { request := { JSONRPC := "2.0", Method := method, Params := params, ID := 1 },
                sent := some (builtRequest c requestBody), result := none,
                err := some (GoError.errorf ("failed to make request: " ++ err)) }
            | Except.ok (Except.error err) =>
              { request := { JSONRPC := "2.0", Method := method, Params := params, ID := 1 },
                sent := some (builtRequest c requestBody), result := none,
                err := some (GoError.errorf ("failed to read response: " ++ err)) }
            | Except.ok (Except.ok body) =>
              match b.Unmarshal body with
              | Except.error err =>
                { request := { JSONRPC := "2.0", Method := method, Params := params, ID := 1 },
                  sent := some (builtRequest c requestBody), result := none,
                  err := some (GoError.errorf ("failed to unmarshal response: " ++ err)) }
              | Except.ok zabbixResp =>
                match zabbixResp.Error with
                | some e =>
                  { request := { JSONRPC := "2.0", Method := method, Params := params, ID := 1 },
                    sent := some (builtRequest c requestBody), result := none,
                    err := some (GoError.zabbix e) }
                | none =>
                  { request := { JSONRPC := "2.0", Method := method, Params := params, ID := 1 },
                    sent := some (builtRequest c requestBody), result := zabbixResp.Result,
                    err := none }) := by
  by_cases h : c.AuthToken = ""
  · simp only [ZabbixClient.Call, builtRequest, h, ne_eq, not_true_eq_false, if_false]
  · simp only [ZabbixClient.Call, builtRequest, h, ne_eq, not_false_eq_true, if_true]

theorem Call_request {P : Type} (b : Backend P) (c : ZabbixClient) (method : String)
    (params : P) :
    (ZabbixClient.Call b c method params).request
      = { JSONRPC := "2.0", Method := method, Params := params, ID := 1 } := by
  rw [Call_eq]
  repeat' split
  all_goals rfl

theorem Call_sent {P : Type} (b : Backend P) (c : ZabbixClient) (method : String)
    (params : P) :
    (ZabbixClient.Call b c method params).sent
      = (match b.Marshal { JSONRPC := "2.0", Method := method, Params := params, ID := 1 } with
        | Except.error _ => none
        | Except.ok requestBody =>
          match b.NewRequestError "POST" c.URL with
          | some _ => none
          | none => some (builtRequest c requestBody)) := by
  rw [Call_eq]
  repeat' split
  all_goals rfl

theorem Call_of_response {P : Type} (b : Backend P) (c : ZabbixClient) (method : String)
    (params : P) (req : HTTPRequest) (body : String) (resp : ZabbixResponse)
    (hsent : (ZabbixClient.Call b c method params).sent = some req)
    (hdo : b.Do req = Except.ok (Except.ok body))
    (hun : b.Unmarshal body = Except.ok resp) :
    (ZabbixClient.Call b c method params).result
        = (match resp.Error with
          | some _ => none
          | none => resp.Result)
      ∧ (ZabbixClient.Call b c method params).err
        = (match resp.Error with
          | some e => some (GoError.zabbix e)
          | none => none) := by
  rw [Call_sent] at hsent
  rw [Call_eq]
  cases hm : b.Marshal { JSONRPC := "2.0", Method := method, Params := params, ID := 1 } with
  | error e => simp [hm] at hsent
  | ok rb =>
    cases hn : b.NewRequestError "POST" c.URL with
    | some e => simp [hm, hn] at hsent
    | none =>
      simp only [hm, hn, Option.some.injEq] at hsent
      subst hsent
      simp only [hdo, hun]
      cases resp.Error <;> simp

theorem canonical_ContentType :
    CanonicalMIMEHeaderKey "Content-Type" = "Content-Type" := by decide

theorem canonical_Authorization :
    CanonicalMIMEHeaderKey "Authorization" = "Authorization" := by decide

/-- C4: for every response body that `Call` reads and that decodes to a
response with an error object (with or without a result), `Call` returns no
result and the error is the `ZabbixError` of the response, with the same
`Code`, `Message` and `Data`. -/
theorem call_returns_backend_error {P : Type} (b : Backend P) (c : ZabbixClient)
    (method : String) (params : P) (req : HTTPRequest) (body : String)
    (resp : ZabbixResponse) (e : ZabbixError)
    (hsent : (ZabbixClient.Call b c method params).sent = some req)
    (hdo : b.Do req = Except.ok (Except.ok body))
    (hun : b.Unmarshal body = Except.ok resp)
    (herr : resp.Error = some e) :
    (ZabbixClient.Call b c method params).result = none
      ∧ ∃ e1, (ZabbixClient.Call b c method params).err = some (GoError.zabbix e1)
        ∧ e1.Code = e.Code ∧ e1.Message = e.Message ∧ e1.Data = e.Data := by
  obtain ⟨hres, herr1⟩ := Call_of_response b c method params req body resp hsent hdo hun
  rw [herr] at hres herr1
  exact ⟨hres, e, herr1, rfl, rfl, rfl⟩

/-- Witness of C4: the response with code -32500, message "Application error."
and data "No permissions" comes back as that `ZabbixError`. -/
theorem call_returns_backend_error_witness :
    (ZabbixClient.Call (fixedBackend "body" noPermissionsResponse) exampleClient "host.get" ()).result
        = none
      ∧ ∃ e1, (ZabbixClient.Call (fixedBackend "body" noPermissionsResponse) exampleClient
            "host.get" ()).err = some (GoError.zabbix e1)
        ∧ e1.Code = -32500 ∧ e1.Message = "Application error." ∧ e1.Data = "No permissions" :=
  call_returns_backend_error (fixedBackend "body" noPermissionsResponse) exampleClient
    "host.get" () (builtRequest exampleClient "envelope") "body" noPermissionsResponse
    { Code := -32500, Message := "Application error.", Data := "No permissions" }
    (by rw [Call_sent]; rfl) rfl rfl rfl

/-- Counterexample to C5: the backend answers with identifier 2 to the request
with identifier 1, and `Call` returns the result of that response with a nil error. -/
theorem call_accepts_other_id :
    (fixedBackend "body" otherIdResponse).Unmarshal "body" = Except.ok otherIdResponse
      ∧ otherIdResponse.ID
        ≠ (ZabbixClient.Call (fixedBackend "body" otherIdResponse) exampleClient "host.get" ()).request.ID
      ∧ (ZabbixClient.Call (fixedBackend "body" otherIdResponse) exampleClient "host.get" ()).err
        = none
      ∧ (ZabbixClient.Call (fixedBackend "body" otherIdResponse) exampleClient "host.get" ()).result
        = some "[]" := by
  refine ⟨rfl, ?_, ?_, ?_⟩
  · rw [Call_request]; decide
  · rw [Call_eq]; rfl
  · rw [Call_eq]; rfl

theorem Call_withResponseID {P : Type} (b : Backend P) (c : ZabbixClient) (method : String)
    (params : P) (id : Int) :
    ZabbixClient.Call (b.withResponseID id) c method params
      = ZabbixClient.Call b c method params := by
  rw [Call_eq, Call_eq]
  simp only [Backend.withResponseID]
  cases hm : b.Marshal { JSONRPC := "2.0", Method := method, Params := params, ID := 1 } with
  | error e => rfl
  | ok rb =>
    cases hn : b.NewRequestError "POST" c.URL with
    | some e => rfl
    | none =>
      simp only []
      cases hd : b.Do (builtRequest c rb) with
      | error e => rfl
      | ok r =>
        cases r with
        | error e => rfl
        | ok body =>
          simp only []
          cases hu : b.Unmarshal body with
          | error e => rfl
          | ok resp => rfl

/-- C5, amended: `Call` does not read the identifier of the response; whatever
identifier the backend answers with, `Call` sends the same request and returns
the same result and error. -/
theorem call_ignores_response_id {P : Type} (b : Backend P) (c : ZabbixClient)
    (method : String) (params : P) (id : Int) :
    (ZabbixClient.Call (b.withResponseID id) c method params).sent
        = (ZabbixClient.Call b c method params).sent
      ∧ (ZabbixClient.Call (b.withResponseID id) c method params).result
        = (ZabbixClient.Call b c method params).result
      ∧ (ZabbixClient.Call (b.withResponseID id) c method params).err
        = (ZabbixClient.Call b c method params).err := by
  rw [Call_withResponseID]
  exact ⟨rfl, rfl, rfl⟩

/-- Counterexample to C6: the response has neither a result nor an error, and
`Call` returns a nil error (with a nil result). -/
theorem call_succeeds_without_result :
    (fixedBackend "body" emptyResponse).Unmarshal "body" = Except.ok emptyResponse
      ∧ emptyResponse.Result = none ∧ emptyResponse.Error = none
      ∧ (ZabbixClient.Call (fixedBackend "body" emptyResponse) exampleClient "host.get" ()).err
        = none
      ∧ (ZabbixClient.Call (fixedBackend "body" emptyResponse) exampleClient "host.get" ()).result
        = none := by
  refine ⟨rfl, rfl, rfl, ?_, ?_⟩
  · rw [Call_eq]; rfl
  · rw [Call_eq]; rfl

/-- C6, amended: `Call` returns a nil error exactly when the request was sent,
the response body was read and decoded, and the response carries no error
object; it then returns the result field of the response unchanged, which is
nil when the response carries no result. -/
theorem call_success_iff {P : Type} (b : Backend P) (c : ZabbixClient) (method : String)
    (params : P) :
    (ZabbixClient.Call b c method params).err = none
      ↔ ∃ req body resp, (ZabbixClient.Call b c method params).sent = some req
          ∧ b.Do req = Except.ok (Except.ok body)
          ∧ b.Unmarshal body = Except.ok resp
          ∧ resp.Error = none
          ∧ (ZabbixClient.Call b c method params).result = resp.Result := by
  constructor
  · intro h
    rw [Call_eq] at h
    rw [Call_eq]
    cases hm : b.Marshal { JSONRPC := "2.0", Method := method, Params := params, ID := 1 } with
    | error e => simp [hm] at h
    | ok rb =>
      cases hn : b.NewRequestError "POST" c.URL with
      | some e => simp [hm, hn] at h
      | none =>
        cases hd : b.Do (builtRequest c rb) with
        | error e => simp [hm, hn, hd] at h
        | ok r =>
          cases r with
          | error e => simp [hm, hn, hd] at h
          | ok body =>
            cases hu : b.Unmarshal body with
            | error e => simp [hm, hn, hd, hu] at h
            | ok resp =>
              cases he : resp.Error with
              | some e => simp [hm, hn, hd, hu, he] at h
              | none =>
                refine ⟨builtRequest c rb, body, resp, ?_, hd, hu, he, ?_⟩
                · simp [hd, hu, he]
                · simp [hd, hu, he]
  · rintro ⟨req, body, resp, hsent, hdo, hun, he, _⟩
    have h := (Call_of_response b c method params req body resp hsent hdo hun).2
    rw [he] at h
    exact h

/-- C7: the request value that `Call` serialises has version "2.0", the given
method, the given params and identifier 1, the body of the HTTP request is its
serialisation, and the identifier is the same for every call on every client. -/
theorem call_envelope {P : Type} (b : Backend P) (c : ZabbixClient) (method : String)
    (params : P) :
    (ZabbixClient.Call b c method params).request.JSONRPC = "2.0"
      ∧ (ZabbixClient.Call b c method params).request.Method = method
      ∧ (ZabbixClient.Call b c method params).request.Params = params
      ∧ (ZabbixClient.Call b c method params).request.ID = 1
      ∧ (∀ req, (ZabbixClient.Call b c method params).sent = some req →
          b.Marshal (ZabbixClient.Call b c method params).request = Except.ok req.Body)
      ∧ (∀ (Q : Type) (b2 : Backend Q) (c2 : ZabbixClient) (method2 : String) (params2 : Q),
          (ZabbixClient.Call b2 c2 method2 params2).request.ID
            = (ZabbixClient.Call b c method params).request.ID) := by
  refine ⟨?_, ?_, ?_, ?_, ?_, ?_⟩
  · rw [Call_request]
  · rw [Call_request]
  · rw [Call_request]
  · rw [Call_request]
  · intro req hsent
    rw [Call_sent] at hsent
    rw [Call_request]
    cases hm : b.Marshal { JSONRPC := "2.0", Method := method, Params := params, ID := 1 } with
    | error e => simp [hm] at hsent
    | ok rb =>
      cases hn : b.NewRequestError "POST" c.URL with
      | some e => simp [hm, hn] at hsent
      | none =>
        simp only [hm, hn, Option.some.injEq] at hsent
        subst hsent
        unfold builtRequest
        split_ifs <;> rfl
  · intro Q b2 c2 method2 params2
    rw [Call_request, Call_request]

theorem builtRequest_header (c : ZabbixClient) (requestBody : String) :
    (builtRequest c requestBody).Header
      = if c.AuthToken ≠ "" then
          [("Authorization", ["Bearer " ++ c.AuthToken]),
            ("Content-Type", ["application/json-rpc"])]
        else [("Content-Type", ["application/json-rpc"])] := by
  unfold builtRequest
  split_ifs <;>
    simp [Header.Set, Header.remove, canonical_ContentType, canonical_Authorization]

/-- C8: when the request value serialises and the request can be created,
`Call` sends a POST to the URL of the client with the serialised value as body
and Content-Type "application/json-rpc"; the request has an Authorization
header exactly when the token of the client is non-empty, and its value is
then "Bearer " followed by the token. -/
theorem call_http_request {P : Type} (b : Backend P) (c : ZabbixClient) (method : String)
    (params : P) (requestBody : String)
    (hm : b.Marshal { JSONRPC := "2.0", Method := method, Params := params, ID := 1 }
      = Except.ok requestBody)
    (hn : b.NewRequestError "POST" c.URL = none) :
    ∃ req, (ZabbixClient.Call b c method params).sent = some req
      ∧ req.Method = "POST" ∧ req.URL = c.URL ∧ req.Body = requestBody
      ∧ req.Header.Get "Content-Type" = "application/json-rpc"
      ∧ (req.Header.Has "Authorization" = true ↔ c.AuthToken ≠ "")
      ∧ (c.AuthToken ≠ "" → req.Header.Get "Authorization" = "Bearer " ++ c.AuthToken) := by
  refine ⟨builtRequest c requestBody, ?_, ?_, ?_, ?_, ?_, ?_, ?_⟩
  · rw [Call_sent, hm, hn]
  · unfold builtRequest; split_ifs <;> rfl
  · unfold builtRequest; split_ifs <;> rfl
  · unfold builtRequest; split_ifs <;> rfl
  · rw [builtRequest_header]
    split_ifs <;> simp [Header.Get, Header.values, canonical_ContentType]
  · rw [builtRequest_header]
    split_ifs with h <;>
      simp [Header.Has, Header.values, canonical_Authorization, h]
  · intro h
    rw [builtRequest_header, if_pos h]
    simp [Header.Get, Header.values, canonical_Authorization]

/-- Witness of C8: the request of a client with token "tok", and the request
of a client without a token. -/
theorem call_http_request_witness :
    (∃ req, (ZabbixClient.Call (fixedBackend "body" emptyResponse) exampleClient "host.get" ()).sent
          = some req
        ∧ req.Method = "POST" ∧ req.URL = exampleClient.URL ∧ req.Body = "envelope"
        ∧ req.Header.Get "Content-Type" = "application/json-rpc"
        ∧ (req.Header.Has "Authorization" = true ↔ exampleClient.AuthToken ≠ "")
        ∧ (exampleClient.AuthToken ≠ "" →
            req.Header.Get "Authorization" = "Bearer " ++ exampleClient.AuthToken))
      ∧ (ZabbixClient.Call (fixedBackend "body" emptyResponse) exampleClient "host.get" ()).sent
        = some { Method := "POST", URL := "http://zabbix.example/api_jsonrpc.php",
                 Header := [("Authorization", ["Bearer tok"]),
                   ("Content-Type", ["application/json-rpc"])],
                 Body := "envelope" }
      ∧ (ZabbixClient.Call (fixedBackend "body" emptyResponse)
            { exampleClient with AuthToken := "" } "host.get" ()).sent
        = some { Method := "POST", URL := "http://zabbix.example/api_jsonrpc.php",
                 Header := [("Content-Type", ["application/json-rpc"])],
                 Body := "envelope" } :=
  ⟨call_http_request (fixedBackend "body" emptyResponse) exampleClient "host.get" ()
      "envelope" rfl rfl,
   by decide, by decide⟩

/-! ## Theorems: the middleware pipeline -/

/-- For C9 (the order of the layers): `BuildMiddlewareStack` returns the CORS
layer around the value-injection layer around the logging layer around the
endpoint handler, so the CORS layer runs first and the logging layer last; an
OPTIONS request is answered by the CORS layer and leaves no log record, while
under the order logging, injection, CORS a debug-level logger records it. -/
theorem stack_runs_cors_first (env : Env) (handler : Handler) (logger : Logger)
    (r : Request) (x : Exchange) :
    BuildMiddlewareStack env handler logger r x
        = CORSMiddleware (GetCORSConfig env)
            (ZabbixContextMiddleware logger (LoggingMiddleware logger handler)) r x
      ∧ (BuildMiddlewareStack env handler logger { r with Method := "OPTIONS" } x).logs = x.logs
      ∧ (DebugLevel ≤ logger.Level →
          (LoggingMiddleware logger (ZabbixContextMiddleware logger
              (CORSMiddleware (GetCORSConfig env) handler)) { r with Method := "OPTIONS" } x).logs
            = { Level := DebugLevel, Message := "HTTP request",
                Fields := [("method", "OPTIONS"), ("path", r.Path), ("remote", r.RemoteAddr)] }
              :: x.logs) := by
  refine ⟨rfl, ?_, ?_⟩
  · simp [BuildMiddlewareStack, CORSMiddleware]
  · intro h
    simp [LoggingMiddleware, ZabbixContextMiddleware, CORSMiddleware, h]

theorem Header.values_remove_same (h : Header) (key : String) :
    Header.values (Header.remove h key) key = none := by
  induction h with
  | nil => rfl
  | cons e rest ih =>
    obtain ⟨k, vs⟩ := e
    by_cases hk : k = key
    · simp only [Header.remove, if_pos hk, ih]
    · simp only [Header.remove, Header.values, if_neg hk, ih]

theorem Header.values_remove_other (h : Header) (key other : String) (hne : other ≠ key) :
    Header.values (Header.remove h key) other = Header.values h other := by
  induction h with
  | nil => rfl
  | cons e rest ih =>
    obtain ⟨k, vs⟩ := e
    by_cases hk : k = key
    · have hko : ¬ k = other := fun hc => hne (hc ▸ hk)
      simp only [Header.remove, Header.values, if_pos hk, if_neg hko, ih]
    · by_cases ho : k = other
      · simp only [Header.remove, Header.values, if_neg hk, if_pos ho]
      · simp only [Header.remove, Header.values, if_neg hk, if_neg ho, ih]

/-- The values under a canonical key after `Set` of a key. -/
theorem Header.values_Set (h : Header) (key value other : String) :
    Header.values (Header.Set h key value) other
      = if CanonicalMIMEHeaderKey key = other then some [value] else Header.values h other := by
  by_cases hk : CanonicalMIMEHeaderKey key = other
  · simp only [Header.Set, Header.values, if_pos hk]
  · simp only [Header.Set, Header.values, if_neg hk]
    exact Header.values_remove_other h _ other (fun hc => hk hc.symm)

theorem canonical_AllowOrigin :
    CanonicalMIMEHeaderKey "Access-Control-Allow-Origin" = "Access-Control-Allow-Origin" := by
  decide

theorem canonical_AllowMethods :
    CanonicalMIMEHeaderKey "Access-Control-Allow-Methods" = "Access-Control-Allow-Methods" := by
  decide

theorem canonical_AllowHeaders :
    CanonicalMIMEHeaderKey "Access-Control-Allow-Headers" = "Access-Control-Allow-Headers" := by
  decide

theorem canonical_AllowCredentials :
    CanonicalMIMEHeaderKey "Access-Control-Allow-Credentials"
      = "Access-Control-Allow-Credentials" := by
  decide

theorem allowOrigin_values_origin (h : Header) (origin : String) :
    Header.values (allowOrigin h origin) "Access-Control-Allow-Origin" = some [origin] := by
  simp [allowOrigin, Header.values_Set, canonical_AllowOrigin, canonical_AllowMethods,
    canonical_AllowHeaders, canonical_AllowCredentials]

theorem allowOrigin_values_credentials (h : Header) (origin : String) :
    Header.values (allowOrigin h origin) "Access-Control-Allow-Credentials" = some ["true"] := by
  simp [allowOrigin, Header.values_Set, canonical_AllowCredentials]

theorem strictLoop_eq (origin : String) (allowed : List String) (h : Header) :
    strictLoop origin allowed h = if origin ∈ allowed then allowOrigin h origin else h := by
  induction allowed with
  | nil => simp [strictLoop]
  | cons a rest ih =>
    by_cases ha : origin = a
    · simp [strictLoop, ha]
    · simp [strictLoop, ha, ih]

/-- The header map that `CORSMiddleware` leaves, and what it does after. -/
theorem CORSMiddleware_strict (config : CORSConfig) (next : Handler) (r : Request)
    (x : Exchange) (hmode : config.Mode = CORSModeStrict) :
    CORSMiddleware config next r x
      = if r.Method = "OPTIONS" then
          { x with
            w := ResponseWriter.WriteHeader
                { x.w with
                  Header := strictLoop (r.Header.Get "Origin") config.AllowedOrigins x.w.Header }
                200 }
        else
          next r
            { x with
              w := { x.w with
                     Header := strictLoop (r.Header.Get "Origin") config.AllowedOrigins
                       x.w.Header } } := by
  have h1 : ¬ CORSModeStrict = CORSModeDisabled := by decide
  have h2 : ¬ CORSModeStrict = CORSModeDevelopment := by decide
  simp only [CORSMiddleware, hmode, if_neg h1, if_neg h2, if_true]

/-- C10: in strict mode, for every request, exchange and allow-list, the CORS
layer hands on (to the next handler, or to the preflight answer) a header map
in which Access-Control-Allow-Origin is the Origin of the request and
Access-Control-Allow-Credentials is "true" when the Origin is an element of
the allow-list, and the header map it was given, unchanged, when it is not; so
a response without Access-Control-Allow-Origin gets one exactly when the Origin
is in the allow-list, and a response without Access-Control-Allow-Credentials
gets one exactly then. -/
theorem cors_strict_allow_list (config : CORSConfig) (r : Request) (x : Exchange)
    (hmode : config.Mode = CORSModeStrict) :
    ∃ header : Header,
      (∀ next : Handler, CORSMiddleware config next r x
          = if r.Method = "OPTIONS" then
              { x with w := ResponseWriter.WriteHeader { x.w with Header := header } 200 }
            else next r { x with w := { x.w with Header := header } })
      ∧ (r.Header.Get "Origin" ∈ config.AllowedOrigins →
          header.Get "Access-Control-Allow-Origin" = r.Header.Get "Origin"
            ∧ header.Has "Access-Control-Allow-Origin" = true
            ∧ header.Get "Access-Control-Allow-Credentials" = "true"
            ∧ header.Has "Access-Control-Allow-Credentials" = true)
      ∧ (r.Header.Get "Origin" ∉ config.AllowedOrigins → header = x.w.Header)
      ∧ (x.w.Header.Has "Access-Control-Allow-Origin" = false →
          (header.Has "Access-Control-Allow-Origin" = true
            ↔ r.Header.Get "Origin" ∈ config.AllowedOrigins))
      ∧ (x.w.Header.Has "Access-Control-Allow-Credentials" = false →
          (header.Has "Access-Control-Allow-Credentials" = true
            ↔ r.Header.Get "Origin" ∈ config.AllowedOrigins)) := by
  refine ⟨strictLoop (r.Header.Get "Origin") config.AllowedOrigins x.w.Header, ?_, ?_, ?_, ?_, ?_⟩
  · intro next
    exact CORSMiddleware_strict config next r x hmode
  · intro hmem
    rw [strictLoop_eq, if_pos hmem]
    simp [Header.Get, Header.Has, canonical_AllowOrigin, canonical_AllowCredentials,
      allowOrigin_values_origin, allowOrigin_values_credentials]
  · intro hmem
    rw [strictLoop_eq, if_neg hmem]
  · intro hfresh
    rw [strictLoop_eq]
    by_cases hmem : r.Header.Get "Origin" ∈ config.AllowedOrigins
    · simp [hmem, Header.Has, canonical_AllowOrigin, allowOrigin_values_origin]
    · simp [hmem, hfresh]
  · intro hfresh
    rw [strictLoop_eq]
    by_cases hmem : r.Header.Get "Origin" ∈ config.AllowedOrigins
    · simp [hmem, Header.Has, canonical_AllowCredentials, allowOrigin_values_credentials]
    · simp [hmem, hfresh]

/-- Witness of C10: Origin https://a.example against the allow-list
[https://b.example] yields no Access-Control-Allow-Origin header, and against
[https://a.example] yields Access-Control-Allow-Origin: https://a.example with
Access-Control-Allow-Credentials: true. -/
theorem cors_strict_allow_list_witness :
    (∃ header : Header,
      (∀ next : Handler,
        CORSMiddleware { Mode := "strict", AllowedOrigins := ["https://a.example"] } next
            (requestFrom "GET" "https://a.example") freshExchange
          = if (requestFrom "GET" "https://a.example").Method = "OPTIONS" then
              { freshExchange with
                w := ResponseWriter.WriteHeader { freshExchange.w with Header := header } 200 }
            else next (requestFrom "GET" "https://a.example")
              { freshExchange with w := { freshExchange.w with Header := header } })
      ∧ header.Get "Access-Control-Allow-Origin" = "https://a.example"
      ∧ header.Get "Access-Control-Allow-Credentials" = "true")
    ∧ (CORSMiddleware { Mode := "strict", AllowedOrigins := ["https://b.example"] } okEndpoint
          (requestFrom "GET" "https://a.example") freshExchange).w.Header
        = []
    ∧ (CORSMiddleware { Mode := "strict", AllowedOrigins := ["https://a.example"] } okEndpoint
          (requestFrom "GET" "https://a.example") freshExchange).w.Header
        = [("Access-Control-Allow-Credentials", ["true"]),
           ("Access-Control-Allow-Headers",
             ["Content-Type, Authorization, X-Zabbix-Token, X-Zabbix-URL"]),
           ("Access-Control-Allow-Methods", ["GET, POST, OPTIONS"]),
           ("Access-Control-Allow-Origin", ["https://a.example"])] := by
  refine ⟨?_, by decide, by decide⟩
  obtain ⟨header, hrun, hin, _, _, _⟩ :=
    cors_strict_allow_list { Mode := "strict", AllowedOrigins := ["https://a.example"] }
      (requestFrom "GET" "https://a.example") freshExchange rfl
  have hmem : (requestFrom "GET" "https://a.example").Header.Get "Origin"
      ∈ ["https://a.example"] := by decide
  exact ⟨header, hrun, (hin hmem).1, (hin hmem).2.2.1⟩

/-- C11: in disabled mode, for every request (any method, any Origin, any
allow-list) the CORS layer hands on the header map of the response as it found
it: it answers an OPTIONS request with status 200 on the unchanged header map
and passes every other request to the next handler with the unchanged
exchange. -/
theorem cors_disabled_adds_nothing (config : CORSConfig) (r : Request) (x : Exchange)
    (hmode : config.Mode = CORSModeDisabled) :
    (∀ next : Handler, CORSMiddleware config next r x
        = if r.Method = "OPTIONS" then { x with w := x.w.WriteHeader 200 } else next r x)
      ∧ (∀ next : Handler, r.Method = "OPTIONS" →
          (CORSMiddleware config next r x).w.Header = x.w.Header) := by
  have hrun : ∀ next : Handler, CORSMiddleware config next r x
      = if r.Method = "OPTIONS" then { x with w := x.w.WriteHeader 200 } else next r x := by
    intro next
    simp only [CORSMiddleware, hmode, if_true]
  refine ⟨hrun, ?_⟩
  intro next hopt
  rw [hrun next, if_pos hopt]
  simp only [ResponseWriter.WriteHeader]
  cases x.w.Status <;> rfl

/-- Witness of C11: in disabled mode a GET and an OPTIONS request with an
Origin leave the response without headers. -/
theorem cors_disabled_adds_nothing_witness :
    (∀ next : Handler,
        CORSMiddleware { Mode := "disabled", AllowedOrigins := ["https://a.example"] } next
            (requestFrom "OPTIONS" "https://a.example") freshExchange
          = if (requestFrom "OPTIONS" "https://a.example").Method = "OPTIONS" then
              { freshExchange with w := freshExchange.w.WriteHeader 200 }
            else next (requestFrom "OPTIONS" "https://a.example") freshExchange)
      ∧ (CORSMiddleware { Mode := "disabled", AllowedOrigins := ["https://a.example"] } okEndpoint
          (requestFrom "GET" "https://a.example") freshExchange).w.Header = []
      ∧ (CORSMiddleware { Mode := "disabled", AllowedOrigins := ["https://a.example"] } okEndpoint
          (requestFrom "OPTIONS" "https://a.example") freshExchange).w.Header = [] :=
  ⟨(cors_disabled_adds_nothing { Mode := "disabled", AllowedOrigins := ["https://a.example"] }
      (requestFrom "OPTIONS" "https://a.example") freshExchange rfl).1,
   by decide, by decide⟩

/-- C12: in development mode, for every request and every allow-list, the
CORS layer hands on a header map in which Access-Control-Allow-Origin is the
value of the Origin header of the request (the empty string when the request
has none) and Access-Control-Allow-Credentials is "true". -/
theorem cors_development_echoes_origin (config : CORSConfig) (r : Request) (x : Exchange)
    (hmode : config.Mode = CORSModeDevelopment) :
    ∃ header : Header,
      (∀ next : Handler, CORSMiddleware config next r x
          = if r.Method = "OPTIONS" then
              { x with w := ResponseWriter.WriteHeader { x.w with Header := header } 200 }
            else next r { x with w := { x.w with Header := header } })
      ∧ header.Get "Access-Control-Allow-Origin" = r.Header.Get "Origin"
      ∧ header.Has "Access-Control-Allow-Origin" = true
      ∧ header.Get "Access-Control-Allow-Credentials" = "true"
      ∧ header.Has "Access-Control-Allow-Credentials" = true := by
  have h1 : ¬ CORSModeDevelopment = CORSModeDisabled := by decide
  refine ⟨allowOrigin x.w.Header (r.Header.Get "Origin"), ?_, ?_, ?_, ?_, ?_⟩
  · intro next
    simp only [CORSMiddleware, hmode, if_neg h1, if_true]
  · simp [Header.Get, canonical_AllowOrigin, allowOrigin_values_origin]
  · simp [Header.Has, canonical_AllowOrigin, allowOrigin_values_origin]
  · simp [Header.Get, canonical_AllowCredentials, allowOrigin_values_credentials]
  · simp [Header.Has, canonical_AllowCredentials, allowOrigin_values_credentials]

/-- Witness of C12: in development mode the Origin https://c.example is echoed
although the allow-list does not hold it. -/
theorem cors_development_echoes_origin_witness :
    (∃ header : Header,
      (∀ next : Handler,
        CORSMiddleware { Mode := "development", AllowedOrigins := ["https://a.example"] } next
            (requestFrom "GET" "https://c.example") freshExchange
          = if (requestFrom "GET" "https://c.example").Method = "OPTIONS" then
              { freshExchange with
                w := ResponseWriter.WriteHeader { freshExchange.w with Header := header } 200 }
            else next (requestFrom "GET" "https://c.example")
              { freshExchange with w := { freshExchange.w with Header := header } })
      ∧ header.Get "Access-Control-Allow-Origin"
          = (requestFrom "GET" "https://c.example").Header.Get "Origin"
      ∧ header.Has "Access-Control-Allow-Origin" = true
      ∧ header.Get "Access-Control-Allow-Credentials" = "true"
      ∧ header.Has "Access-Control-Allow-Credentials" = true)
    ∧ Header.Get (CORSMiddleware { Mode := "development", AllowedOrigins := ["https://a.example"] }
          okEndpoint (requestFrom "GET" "https://c.example") freshExchange).w.Header
        "Access-Control-Allow-Origin" = "https://c.example" :=
  ⟨cors_development_echoes_origin
      { Mode := "development", AllowedOrigins := ["https://a.example"] }
      (requestFrom "GET" "https://c.example") freshExchange rfl,
   by decide⟩

/-- The header map that the CORS layer hands on, by mode. -/
theorem CORSMiddleware_eq (config : CORSConfig) (next : Handler) (r : Request) (x : Exchange) :
    CORSMiddleware config next r x
      = if r.Method = "OPTIONS" then
          { x with
            w := ResponseWriter.WriteHeader
                { x.w with
                  Header :=
                    if config.Mode = CORSModeDisabled then x.w.Header
                    else if config.Mode = CORSModeDevelopment then
                      allowOrigin x.w.Header (r.Header.Get "Origin")
                    else if config.Mode = CORSModeStrict then
                      strictLoop (r.Header.Get "Origin") config.AllowedOrigins x.w.Header
                    else x.w.Header }
                200 }
        else
          next r
            { x with
              w := { x.w with
                     Header :=
                       if config.Mode = CORSModeDisabled then x.w.Header
                       else if config.Mode = CORSModeDevelopment then
                         allowOrigin x.w.Header (r.Header.Get "Origin")
                       else if config.Mode = CORSModeStrict then
                         strictLoop (r.Header.Get "Origin") config.AllowedOrigins x.w.Header
                       else x.w.Header } } := rfl

/-- The context that the value-injection layer hands on: the bindings it
attaches, innermost first, in front of the context of the request. -/
theorem ZabbixContextMiddleware_eq (logger : Logger) (next : Handler) (r : Request)
    (x : Exchange) :
    ZabbixContextMiddleware logger next r x
      = next
          { r with
            Ctx :=
              (if QueryGet r.Query "ZABBIX_URL" ≠ "" then
                  [(ZabbixURL, Any.str (QueryGet r.Query "ZABBIX_URL"))] else [])
                ++ (if r.Header.Get ZabbixHeaderToken ≠ "" then
                  [(ZabbixToken, Any.str (r.Header.Get ZabbixHeaderToken))] else [])
                ++ (if r.Header.Get ZabbixHeaderURL ≠ "" then
                  [(ZabbixURL, Any.str (r.Header.Get ZabbixHeaderURL))] else [])
                ++ r.Ctx }
          x := by
  unfold ZabbixContextMiddleware
  simp only [Context.WithValue]
  split_ifs <;> rfl

theorem CORSMiddleware_calls_next (config : CORSConfig) (r : Request) (x : Exchange)
    (hopt : r.Method ≠ "OPTIONS") :
    ∃ x1, ∀ next : Handler, CORSMiddleware config next r x = next r x1 :=
  ⟨{ x with
      w := { x.w with
             Header :=
               if config.Mode = CORSModeDisabled then x.w.Header
               else if config.Mode = CORSModeDevelopment then
                 allowOrigin x.w.Header (r.Header.Get "Origin")
               else if config.Mode = CORSModeStrict then
                 strictLoop (r.Header.Get "Origin") config.AllowedOrigins x.w.Header
               else x.w.Header } },
    fun next => by rw [CORSMiddleware_eq, if_neg hopt]⟩

theorem ZabbixContextMiddleware_calls_next (logger : Logger) (r : Request) (x : Exchange) :
    ∃ r1, ∀ next : Handler, ZabbixContextMiddleware logger next r x = next r1 x :=
  ⟨{ r with
      Ctx :=
        (if QueryGet r.Query "ZABBIX_URL" ≠ "" then
            [(ZabbixURL, Any.str (QueryGet r.Query "ZABBIX_URL"))] else [])
          ++ (if r.Header.Get ZabbixHeaderToken ≠ "" then
            [(ZabbixToken, Any.str (r.Header.Get ZabbixHeaderToken))] else [])
          ++ (if r.Header.Get ZabbixHeaderURL ≠ "" then
            [(ZabbixURL, Any.str (r.Header.Get ZabbixHeaderURL))] else [])
          ++ r.Ctx },
    fun next => ZabbixContextMiddleware_eq logger next r x⟩

theorem LoggingMiddleware_calls_next (logger : Logger) (r : Request) (x : Exchange) :
    ∃ x1, ∀ next : Handler, LoggingMiddleware logger next r x = next r x1 :=
  ⟨if DebugLevel ≤ logger.Level then
      { x with
        logs :=
          { Level := DebugLevel, Message := "HTTP request",
            Fields := [("method", r.Method), ("path", r.Path), ("remote", r.RemoteAddr)] }
            :: x.logs }
    else x,
    fun _ => rfl⟩

/-- C13: through the handler of `BuildMiddlewareStack`, an OPTIONS request is
answered by the CORS layer, which applies the headers of its mode and writes
status 200, and the result is the same for every endpoint handler (it is not
invoked); for every other method the result is the endpoint handler applied
once to one request and one exchange, and each layer (CORS, value injection,
logging) applies its next handler once. -/
theorem pipeline_preflight_and_call_through (env : Env) (logger : Logger) (r : Request)
    (x : Exchange) :
    (r.Method = "OPTIONS" →
        ∃ header : Header,
          header
              = (if (GetCORSConfig env).Mode = CORSModeDisabled then x.w.Header
                else if (GetCORSConfig env).Mode = CORSModeDevelopment then
                  allowOrigin x.w.Header (r.Header.Get "Origin")
                else if (GetCORSConfig env).Mode = CORSModeStrict then
                  strictLoop (r.Header.Get "Origin") (GetCORSConfig env).AllowedOrigins x.w.Header
                else x.w.Header)
            ∧ (∀ handler : Handler, BuildMiddlewareStack env handler logger r x
                = { x with w := ResponseWriter.WriteHeader { x.w with Header := header } 200 })
            ∧ (x.w.Status = none → ∀ handler : Handler,
                (BuildMiddlewareStack env handler logger r x).w.Status = some 200))
      ∧ (r.Method ≠ "OPTIONS" →
          (∃ r1 x1, ∀ handler : Handler, BuildMiddlewareStack env handler logger r x = handler r1 x1)
            ∧ (∀ config : CORSConfig, ∃ x1, ∀ next : Handler,
                CORSMiddleware config next r x = next r x1))
      ∧ (∃ r1, ∀ next : Handler, ZabbixContextMiddleware logger next r x = next r1 x)
      ∧ (∃ x1, ∀ next : Handler, LoggingMiddleware logger next r x = next r x1) := by
  refine ⟨?_, ?_, ZabbixContextMiddleware_calls_next logger r x,
    LoggingMiddleware_calls_next logger r x⟩
  · intro hopt
    refine ⟨_, rfl, ?_, ?_⟩
    · intro handler
      simp only [BuildMiddlewareStack]
      rw [CORSMiddleware_eq, if_pos hopt]
    · intro hstatus handler
      simp only [BuildMiddlewareStack]
      rw [CORSMiddleware_eq, if_pos hopt]
      simp [ResponseWriter.WriteHeader, hstatus]
  · intro hopt
    refine ⟨?_, fun config => CORSMiddleware_calls_next config r x hopt⟩
    obtain ⟨x1, h1⟩ := CORSMiddleware_calls_next (GetCORSConfig env) r x hopt
    obtain ⟨r1, h2⟩ := ZabbixContextMiddleware_calls_next logger r x1
    obtain ⟨x2, h3⟩ := LoggingMiddleware_calls_next logger r1 x1
    refine ⟨r1, x2, fun handler => ?_⟩
    simp only [BuildMiddlewareStack]
    rw [h1, h2, h3]

/-- Witness of C13: with a debug-level logger and CORS mode development, an
OPTIONS request gets status 200, the CORS headers, and no body from the
endpoint handler; a GET request gets the body of the endpoint handler once. -/
theorem pipeline_preflight_and_call_through_witness :
    (∃ r1 x1, ∀ handler : Handler,
        BuildMiddlewareStack [("MCP_CORS_MODE", "development")] handler debugLogger
          (requestFrom "GET" "https://a.example") freshExchange = handler r1 x1)
      ∧ (BuildMiddlewareStack [("MCP_CORS_MODE", "development")] okEndpoint debugLogger
          (requestFrom "OPTIONS" "https://a.example") freshExchange).w.Status = some 200
      ∧ (BuildMiddlewareStack [("MCP_CORS_MODE", "development")] okEndpoint debugLogger
          (requestFrom "OPTIONS" "https://a.example") freshExchange).w.Body = ""
      ∧ Header.Get (BuildMiddlewareStack [("MCP_CORS_MODE", "development")] okEndpoint debugLogger
          (requestFrom "OPTIONS" "https://a.example") freshExchange).w.Header
          "Access-Control-Allow-Origin" = "https://a.example"
      ∧ (BuildMiddlewareStack [("MCP_CORS_MODE", "development")] okEndpoint debugLogger
          (requestFrom "GET" "https://a.example") freshExchange).w.Body = "ok" :=
  ⟨((pipeline_preflight_and_call_through [("MCP_CORS_MODE", "development")] debugLogger
      (requestFrom "GET" "https://a.example") freshExchange).2.1 (by decide)).1,
   by decide, by decide, by decide, by decide⟩

theorem Context.Value_cons (ctx : Context) (k key : String) (v : Any) :
    Context.Value ((k, v) :: ctx) key = if k = key then some v else Context.Value ctx key := rfl

theorem ZabbixURL_ne_ZabbixToken : ¬ ZabbixURL = ZabbixToken := by decide

theorem ZabbixToken_ne_ZabbixURL : ¬ ZabbixToken = ZabbixURL := by decide

/-- C14: the value-injection layer passes the request to the next handler in
every case, with the exchange as it found it and with a context that is the
context of the request extended by a URL binding for a non-empty X-Zabbix-URL
header, a token binding for a non-empty X-Zabbix-Token header and a URL
binding for a non-empty ZABBIX_URL query parameter, and by nothing else: the
scoped URL is attached exactly when the header or the query parameter is
non-empty, the scoped token exactly when the token header is non-empty, and a
value that is absent leaves the scoped value of the incoming context. -/
theorem context_middleware_attaches (logger : Logger) (r : Request) (x : Exchange) :
    ∃ ctx1 : Context,
      (∀ next : Handler, ZabbixContextMiddleware logger next r x = next { r with Ctx := ctx1 } x)
      ∧ ctx1
          = (if QueryGet r.Query "ZABBIX_URL" ≠ "" then
                [(ZabbixURL, Any.str (QueryGet r.Query "ZABBIX_URL"))] else [])
              ++ (if r.Header.Get ZabbixHeaderToken ≠ "" then
                [(ZabbixToken, Any.str (r.Header.Get ZabbixHeaderToken))] else [])
              ++ (if r.Header.Get ZabbixHeaderURL ≠ "" then
                [(ZabbixURL, Any.str (r.Header.Get ZabbixHeaderURL))] else [])
              ++ r.Ctx
      ∧ ctx1.Value ZabbixURL
          = (if QueryGet r.Query "ZABBIX_URL" ≠ "" then
              some (Any.str (QueryGet r.Query "ZABBIX_URL"))
            else if r.Header.Get ZabbixHeaderURL ≠ "" then
              some (Any.str (r.Header.Get ZabbixHeaderURL))
            else r.Ctx.Value ZabbixURL)
      ∧ ctx1.Value ZabbixToken
          = (if r.Header.Get ZabbixHeaderToken ≠ "" then
              some (Any.str (r.Header.Get ZabbixHeaderToken))
            else r.Ctx.Value ZabbixToken)
      ∧ (∀ key, key ≠ ZabbixURL → key ≠ ZabbixToken → ctx1.Value key = r.Ctx.Value key)
      ∧ (r.Header.Get ZabbixHeaderURL = "" → QueryGet r.Query "ZABBIX_URL" = "" →
          r.Header.Get ZabbixHeaderToken = "" → ctx1 = r.Ctx) := by
  refine ⟨_, fun next => ZabbixContextMiddleware_eq logger next r x, rfl, ?_, ?_, ?_, ?_⟩
  · split_ifs <;>
      simp [Context.Value_cons, ZabbixToken_ne_ZabbixURL]
  · split_ifs <;>
      simp [Context.Value_cons, ZabbixURL_ne_ZabbixToken]
  · intro key h1 h2
    have h1n : ¬ ZabbixURL = key := fun hc => h1 hc.symm
    have h2n : ¬ ZabbixToken = key := fun hc => h2 hc.symm
    split_ifs <;> simp [Context.Value_cons, h1n, h2n]
  · intro h1 h2 h3
    simp [h1, h2, h3]

/-- Witness of C14: a request with both headers gets both scoped values, and a
request with neither keeps the context it came with. -/
theorem context_middleware_attaches_witness :
    (∃ ctx1 : Context,
      (∀ next : Handler,
        ZabbixContextMiddleware debugLogger next
            { requestFrom "POST" "https://a.example" with
              Header := [("X-Zabbix-Url", ["http://z/api"]), ("X-Zabbix-Token", ["tok"])] }
            freshExchange
          = next
              { requestFrom "POST" "https://a.example" with
                Header := [("X-Zabbix-Url", ["http://z/api"]), ("X-Zabbix-Token", ["tok"])],
                Ctx := ctx1 }
              freshExchange)
      ∧ ctx1.Value ZabbixURL = some (Any.str "http://z/api")
      ∧ ctx1.Value ZabbixToken = some (Any.str "tok"))
    ∧ (∃ ctx1 : Context,
      (∀ next : Handler,
        ZabbixContextMiddleware debugLogger next
            { requestFrom "POST" "https://a.example" with Ctx := [("ZABBIX_URL", Any.str "old")] }
            freshExchange
          = next
              { requestFrom "POST" "https://a.example" with Ctx := ctx1 }
              freshExchange)
      ∧ ctx1 = [("ZABBIX_URL", Any.str "old")]) := by
  constructor
  · obtain ⟨ctx1, hrun, hctx, _, _, _, _⟩ :=
      context_middleware_attaches debugLogger
        { requestFrom "POST" "https://a.example" with
          Header := [("X-Zabbix-Url", ["http://z/api"]), ("X-Zabbix-Token", ["tok"])] }
        freshExchange
    refine ⟨ctx1, hrun, ?_, ?_⟩
    · rw [hctx]; decide
    · rw [hctx]; decide
  · obtain ⟨ctx1, hrun, _, _, _, _, hnone⟩ :=
      context_middleware_attaches debugLogger
        { requestFrom "POST" "https://a.example" with Ctx := [("ZABBIX_URL", Any.str "old")] }
        freshExchange
    exact ⟨ctx1, hrun, hnone (by decide) (by decide) (by decide)⟩

/-! ## Theorems: get-or-create, session handlers, deletion -/

/-- The two outcomes of `CreateZabbixClientForSession`, with the client it builds. -/
theorem CreateZabbixClientForSession_eq (env : Env) (ctx : Context) (session : ClientSession)
    (m : SyncMap) :
    CreateZabbixClientForSession env ctx session m
      = if ((stringAssert (ctx.Value ZabbixToken)).2 = false
            ∨ (stringAssert (ctx.Value ZabbixToken)).1 = "")
          ∧ getEnv env ZabbixToken "" = "" then
          (Except.error "zabbix token not provided for session", m)
        else
          (Except.ok
            { URL :=
                if (stringAssert (ctx.Value ZabbixURL)).2 = false
                    ∨ (stringAssert (ctx.Value ZabbixURL)).1 = "" then
                  getEnv env ZabbixURL DefaultZabbixURL
                else (stringAssert (ctx.Value ZabbixURL)).1,
              AuthToken :=
                if (stringAssert (ctx.Value ZabbixToken)).2 = false
                    ∨ (stringAssert (ctx.Value ZabbixToken)).1 = "" then
                  getEnv env ZabbixToken ""
                else (stringAssert (ctx.Value ZabbixToken)).1,
              SkipTLSVerify :=
                if getEnv env ZabbixSkipTLSVerify "false" = "true"
                    ∨ getEnv env ZabbixSkipTLSVerify "false" = "1" then true else false },
           SyncMap.Store m session.SessionID
            { URL :=
                if (stringAssert (ctx.Value ZabbixURL)).2 = false
                    ∨ (stringAssert (ctx.Value ZabbixURL)).1 = "" then
                  getEnv env ZabbixURL DefaultZabbixURL
                else (stringAssert (ctx.Value ZabbixURL)).1,
              AuthToken :=
                if (stringAssert (ctx.Value ZabbixToken)).2 = false
                    ∨ (stringAssert (ctx.Value ZabbixToken)).1 = "" then
                  getEnv env ZabbixToken ""
                else (stringAssert (ctx.Value ZabbixToken)).1,
              SkipTLSVerify :=
                if getEnv env ZabbixSkipTLSVerify "false" = "true"
                    ∨ getEnv env ZabbixSkipTLSVerify "false" = "1" then true else false }) := by
  simp only [CreateZabbixClientForSession, create_tail]
  by_cases h1 : (stringAssert (ctx.Value ZabbixToken)).2 = false
      ∨ (stringAssert (ctx.Value ZabbixToken)).1 = ""
  · by_cases h2 : getEnv env ZabbixToken "" = ""
    · simp only [h1, h2, if_true, and_self]
    · simp only [h1, h2, if_true, if_false, and_false]
  · simp only [h1, if_false, false_and]

/-- A creation either fails and leaves the registry, or succeeds and stores
the client it returns under the session id. -/
theorem CreateZabbixClientForSession_cases (env : Env) (ctx : Context)
    (session : ClientSession) (m : SyncMap) :
    (∃ e, CreateZabbixClientForSession env ctx session m = (Except.error e, m))
      ∨ ∃ c, CreateZabbixClientForSession env ctx session m
          = (Except.ok c, SyncMap.Store m session.SessionID c) := by
  rw [CreateZabbixClientForSession_eq]
  by_cases h : ((stringAssert (ctx.Value ZabbixToken)).2 = false
      ∨ (stringAssert (ctx.Value ZabbixToken)).1 = "") ∧ getEnv env ZabbixToken "" = ""
  · rw [if_pos h]
    exact Or.inl ⟨_, rfl⟩
  · rw [if_neg h]
    exact Or.inr ⟨_, rfl⟩

/-- A non-empty token string in the context makes the creation succeed with it. -/
theorem CreateZabbixClientForSession_ctx_token (env : Env) (ctx : Context)
    (session : ClientSession) (m : SyncMap) (t : String)
    (ht : ctx.Value ZabbixToken = some (Any.str t)) (hne : t ≠ "") :
    ∃ c, CreateZabbixClientForSession env ctx session m
        = (Except.ok c, SyncMap.Store m session.SessionID c) ∧ c.AuthToken = t := by
  rw [CreateZabbixClientForSession_eq]
  have h1 : ¬ ((stringAssert (ctx.Value ZabbixToken)).2 = false
      ∨ (stringAssert (ctx.Value ZabbixToken)).1 = "") := by
    simp [ht, stringAssert, hne]
  rw [if_neg (fun hc => h1 hc.1)]
  refine ⟨_, rfl, ?_⟩
  simp [ht, stringAssert, hne]

theorem GetZabbixClientFromContext_found (env : Env) (ctx : Context) (session : ClientSession)
    (m : SyncMap) (c : ZabbixClient) (h : GetZabbixClient m session.SessionID = some c) :
    GetZabbixClientFromContext env ctx (some session) m = (Except.ok c, m) := by
  simp only [GetZabbixClientFromContext, h]

theorem GetZabbixClientFromContext_absent (env : Env) (ctx : Context) (session : ClientSession)
    (m : SyncMap) (h : GetZabbixClient m session.SessionID = none) :
    GetZabbixClientFromContext env ctx (some session) m
      = CreateZabbixClientForSession env ctx session m := by
  simp only [GetZabbixClientFromContext, h]

theorem NewSessionHandler_eq (env : Env) (ctx : Context) (session : ClientSession)
    (m : SyncMap) :
    NewSessionHandler env ctx session m = (CreateZabbixClientForSession env ctx session m).2 := by
  unfold NewSessionHandler
  rcases CreateZabbixClientForSession_cases env ctx session m with ⟨e, h⟩ | ⟨c, h⟩ <;> rw [h]

/-- C15: `GetZabbixClientFromContext` fails with "no active session" when the
context has no session; returns the client the registry holds for the session
and leaves the registry as it is, whatever the context and the environment
hold; and otherwise runs `CreateZabbixClientForSession`, after whose success
the next call for the session returns the same client. A session whose
creation by `NewSessionHandler` failed gets its client from the first call
whose context holds a non-empty token. -/
theorem get_or_create_client (env : Env) (ctx : Context) (session : ClientSession)
    (m : SyncMap) :
    GetZabbixClientFromContext env ctx none m = (Except.error "no active session", m)
      ∧ (∀ c, GetZabbixClient m session.SessionID = some c →
          GetZabbixClientFromContext env ctx (some session) m = (Except.ok c, m))
      ∧ (GetZabbixClient m session.SessionID = none →
          GetZabbixClientFromContext env ctx (some session) m
            = CreateZabbixClientForSession env ctx session m)
      ∧ (GetZabbixClient m session.SessionID = none → ∀ c m1,
          GetZabbixClientFromContext env ctx (some session) m = (Except.ok c, m1) →
          GetZabbixClient m1 session.SessionID = some c
            ∧ ∀ env2 ctx2, GetZabbixClientFromContext env2 ctx2 (some session) m1
                = (Except.ok c, m1))
      ∧ (GetZabbixClient m session.SessionID = none →
          (∀ c, (CreateZabbixClientForSession env ctx session m).1 ≠ Except.ok c) →
          ∀ ctx2 t, Context.Value ctx2 ZabbixToken = some (Any.str t) → t ≠ "" →
            ∃ c, GetZabbixClientFromContext env ctx2 (some session)
                  (NewSessionHandler env ctx session m)
                = (Except.ok c, SyncMap.Store m session.SessionID c)
              ∧ c.AuthToken = t) := by
  refine ⟨rfl, ?_, ?_, ?_, ?_⟩
  · intro c h
    exact GetZabbixClientFromContext_found env ctx session m c h
  · intro h
    exact GetZabbixClientFromContext_absent env ctx session m h
  · intro h c m1 hget
    rw [GetZabbixClientFromContext_absent env ctx session m h] at hget
    have hstored : GetZabbixClient m1 session.SessionID = some c := by
      rcases CreateZabbixClientForSession_cases env ctx session m with ⟨e, he⟩ | ⟨c1, hc1⟩
      · rw [he] at hget
        simp at hget
      · rw [hc1] at hget
        simp only [Prod.mk.injEq, Except.ok.injEq] at hget
        obtain ⟨hc, hm⟩ := hget
        rw [← hm, hc, GetZabbixClient_eq_Load]
        exact SyncMap.Load_Store_same m _ c
    exact ⟨hstored, fun env2 ctx2 =>
      GetZabbixClientFromContext_found env2 ctx2 session m1 c hstored⟩
  · intro h hfail ctx2 t ht hne
    have hsame : NewSessionHandler env ctx session m = m := by
      rw [NewSessionHandler_eq]
      rcases CreateZabbixClientForSession_cases env ctx session m with ⟨e, he⟩ | ⟨c1, hc1⟩
      · rw [he]
      · exact absurd (by rw [hc1]) (hfail c1)
    rw [hsame, GetZabbixClientFromContext_absent env ctx2 session m h]
    exact CreateZabbixClientForSession_ctx_token env ctx2 session m t ht hne

/-- Witness of C15: without a token the session start creates nothing; the
first call with a token in the context creates the client, and the next call,
without a token, returns the same client. -/
theorem get_or_create_client_witness :
    NewSessionHandler [] [] { SessionID := "s1" } [] = []
      ∧ (∃ c, GetZabbixClientFromContext [] [("ZABBIX_TOKEN", Any.str "tok")]
              (some { SessionID := "s1" }) (NewSessionHandler [] [] { SessionID := "s1" } [])
            = (Except.ok c, SyncMap.Store [] "s1" c)
          ∧ c.AuthToken = "tok")
      ∧ GetZabbixClientFromContext [] [] (some { SessionID := "s1" })
          (GetZabbixClientFromContext [] [("ZABBIX_TOKEN", Any.str "tok")]
            (some { SessionID := "s1" }) []).2
        = (Except.ok { URL := "http://127.0.0.1/api_jsonrpc.php", AuthToken := "tok",
                       SkipTLSVerify := false },
           [("s1", { URL := "http://127.0.0.1/api_jsonrpc.php", AuthToken := "tok",
                     SkipTLSVerify := false })]) :=
  ⟨by decide,
   (get_or_create_client [] [] { SessionID := "s1" } []).2.2.2.2 (by decide)
      (fun c hc => by
        have h : (CreateZabbixClientForSession [] [] { SessionID := "s1" } []).1
            = Except.error "zabbix token not provided for session" := by decide
        rw [h] at hc
        cases hc)
      [("ZABBIX_TOKEN", Any.str "tok")] "tok" (by decide) (by decide),
   by decide⟩

theorem NewServer_hooks (ver : String) :
    (NewServer ver []).OnRegisterSession = [] ∧ (NewServer ver []).OnUnregisterSession = [] :=
  ⟨rfl, rfl⟩

/-- For C16 (session start and end handlers): the server that `NewServer`
builds without further options, as `runHTTPServer` does, has no session hooks,
so accepting a session and seeing it disconnect leave the registry as it is;
the client that a tool call of session "s1" creates is still in the registry
after the session has disconnected, while a server with `NewSessionHandler`
and `EndSessionHandler` as hooks leaves no entry. -/
theorem server_fires_no_session_hooks (ver : String) (env : Env) (session : ClientSession)
    (ctx : Context) (m : SyncMap) :
    (NewServer ver []).handle env (TransportEvent.accept session ctx) m = m
      ∧ (NewServer ver []).handle env (TransportEvent.disconnect session ctx) m = m
      ∧ GetZabbixClient
          ((NewServer "1.0" []).serve [("ZABBIX_TOKEN", "tok")] oneSessionRun []) "s1"
        = some { URL := "http://127.0.0.1/api_jsonrpc.php", AuthToken := "tok",
                 SkipTLSVerify := false }
      ∧ GetZabbixClient
          ((NewServer "1.0" [sessionHooks]).serve [("ZABBIX_TOKEN", "tok")] oneSessionRun []) "s1"
        = none := by
  refine ⟨rfl, rfl, ?_, ?_⟩
  · decide
  · decide

theorem SyncMap.Delete_absent (m : SyncMap) (key : String) (h : SyncMap.Load m key = none) :
    SyncMap.Delete m key = m := by
  induction m with
  | nil => rfl
  | cons e rest ih =>
    obtain ⟨k, v⟩ := e
    by_cases hk : k = key
    · simp [SyncMap.Load, hk] at h
    · simp only [SyncMap.Load, if_neg hk] at h
      simp only [SyncMap.Delete, if_neg hk, ih h]

/-- C17: `DeleteZabbixClient` is a total function of the registry and the
session id (it has no error to return); deleting `s` twice leaves the same
registry as deleting it once, deleting an `s` that has no entry leaves the
registry as it is, after deleting `s` there is no client for `s`, and for
every other id `t` the result of `GetZabbixClient t` is the same before and
after. -/
theorem delete_idempotent_local (m : SyncMap) (s : String) :
    DeleteZabbixClient (DeleteZabbixClient m s) s = DeleteZabbixClient m s
      ∧ (GetZabbixClient m s = none → DeleteZabbixClient m s = m)
      ∧ GetZabbixClient (DeleteZabbixClient m s) s = none
      ∧ (∀ t, t ≠ s → GetZabbixClient (DeleteZabbixClient m s) t = GetZabbixClient m t) := by
  refine ⟨?_, ?_, ?_, ?_⟩
  · simp only [DeleteZabbixClient]
    exact SyncMap.Delete_absent _ s (SyncMap.Load_Delete_same m s)
  · intro h
    rw [GetZabbixClient_eq_Load] at h
    exact SyncMap.Delete_absent m s h
  · rw [GetZabbixClient_eq_Load]
    exact SyncMap.Load_Delete_same m s
  · intro t ht
    rw [GetZabbixClient_eq_Load, GetZabbixClient_eq_Load]
    exact SyncMap.Load_Delete_other m s t ht

/-- Witness of C17: deleting the absent "s9" leaves a registry with "s1" and
"s2" as it is, and deleting "s1" leaves the client of "s2". -/
theorem delete_idempotent_local_witness :
    DeleteZabbixClient
        [("s1", { URL := "http://a/api", AuthToken := "ta", SkipTLSVerify := false }),
         ("s2", { URL := "http://b/api", AuthToken := "tb", SkipTLSVerify := true })] "s9"
      = [("s1", { URL := "http://a/api", AuthToken := "ta", SkipTLSVerify := false }),
         ("s2", { URL := "http://b/api", AuthToken := "tb", SkipTLSVerify := true })]
    ∧ GetZabbixClient (DeleteZabbixClient
        [("s1", { URL := "http://a/api", AuthToken := "ta", SkipTLSVerify := false }),
         ("s2", { URL := "http://b/api", AuthToken := "tb", SkipTLSVerify := true })] "s1") "s2"
      = GetZabbixClient
        [("s1", { URL := "http://a/api", AuthToken := "ta", SkipTLSVerify := false }),
         ("s2", { URL := "http://b/api", AuthToken := "tb", SkipTLSVerify := true })] "s2" :=
  ⟨(delete_idempotent_local
      [("s1", { URL := "http://a/api", AuthToken := "ta", SkipTLSVerify := false }),
       ("s2", { URL := "http://b/api", AuthToken := "tb", SkipTLSVerify := true })] "s9").2.1
      (by decide),
   (delete_idempotent_local
      [("s1", { URL := "http://a/api", AuthToken := "ta", SkipTLSVerify := false }),
       ("s2", { URL := "http://b/api", AuthToken := "tb", SkipTLSVerify := true })] "s1").2.2.2
      "s2" (by decide)⟩

/-! ## Theorems: URL and TLS flag of a created client -/

/-- For C18 (non-empty base URL): with `ZABBIX_URL` set to the empty string,
a token in the environment and no URL in the context,
`CreateZabbixClientForSession` succeeds and stores a client whose URL is the
empty string; with `ZABBIX_URL` unset it stores the default URL. -/
theorem create_stores_empty_url :
    CreateZabbixClientForSession [("ZABBIX_URL", ""), ("ZABBIX_TOKEN", "tok")] []
        { SessionID := "s1" } []
      = (Except.ok { URL := "", AuthToken := "tok", SkipTLSVerify := false },
         [("s1", { URL := "", AuthToken := "tok", SkipTLSVerify := false })])
    ∧ CreateZabbixClientForSession [("ZABBIX_TOKEN", "tok")] [] { SessionID := "s1" } []
      = (Except.ok { URL := "http://127.0.0.1/api_jsonrpc.php", AuthToken := "tok",
                     SkipTLSVerify := false },
         [("s1", { URL := "http://127.0.0.1/api_jsonrpc.php", AuthToken := "tok",
                   SkipTLSVerify := false })]) := by
  constructor <;> decide

theorem create_ok_client (env : Env) (ctx : Context) (session : ClientSession) (m : SyncMap)
    (c : ZabbixClient) (h : (CreateZabbixClientForSession env ctx session m).1 = Except.ok c) :
    CreateZabbixClientForSession env ctx session m
        = (Except.ok c, SyncMap.Store m session.SessionID c)
      ∧ c.SkipTLSVerify
        = (if getEnv env ZabbixSkipTLSVerify "false" = "true"
              ∨ getEnv env ZabbixSkipTLSVerify "false" = "1" then true else false) := by
  rw [CreateZabbixClientForSession_eq] at h ⊢
  by_cases hc : ((stringAssert (ctx.Value ZabbixToken)).2 = false
      ∨ (stringAssert (ctx.Value ZabbixToken)).1 = "") ∧ getEnv env ZabbixToken "" = ""
  · rw [if_pos hc] at h
    cases h
  · rw [if_neg hc] at h ⊢
    simp only [Except.ok.injEq] at h
    subst h
    exact ⟨rfl, rfl⟩

theorem getEnv_skip_iff (env : Env) :
    (getEnv env ZabbixSkipTLSVerify "false" = "true"
        ∨ getEnv env ZabbixSkipTLSVerify "false" = "1")
      ↔ (LookupEnv env ZabbixSkipTLSVerify = some "true"
        ∨ LookupEnv env ZabbixSkipTLSVerify = some "1") := by
  cases h : LookupEnv env ZabbixSkipTLSVerify with
  | none =>
    rw [getEnv_of_unset env _ _ h]
    simp
  | some v =>
    rw [getEnv_of_lookup env _ _ v h]
    simp

/-- C19: the client that a successful `CreateZabbixClientForSession` returns
and stores skips TLS verification exactly when `ZABBIX_SKIP_VERIFY` is set to
"true" or to "1"; for every other value, and when the variable is unset, the
flag is false; and the flag is the same for every context, session and
registry under the same environment. -/
theorem create_skip_tls_flag (env : Env) (ctx : Context) (session : ClientSession)
    (m : SyncMap) (c : ZabbixClient)
    (hok : (CreateZabbixClientForSession env ctx session m).1 = Except.ok c) :
    (c.SkipTLSVerify = true
        ↔ (LookupEnv env ZabbixSkipTLSVerify = some "true"
          ∨ LookupEnv env ZabbixSkipTLSVerify = some "1"))
      ∧ GetZabbixClient (CreateZabbixClientForSession env ctx session m).2 session.SessionID
        = some c
      ∧ (LookupEnv env ZabbixSkipTLSVerify = none → c.SkipTLSVerify = false)
      ∧ (∀ ctx2 session2 m2 c2,
          (CreateZabbixClientForSession env ctx2 session2 m2).1 = Except.ok c2 →
          c2.SkipTLSVerify = c.SkipTLSVerify) := by
  obtain ⟨hrun, hflag⟩ := create_ok_client env ctx session m c hok
  have hiff : c.SkipTLSVerify = true
      ↔ (LookupEnv env ZabbixSkipTLSVerify = some "true"
        ∨ LookupEnv env ZabbixSkipTLSVerify = some "1") := by
    rw [hflag, ← getEnv_skip_iff]
    split_ifs with h <;> simp [h]
  refine ⟨hiff, ?_, ?_, ?_⟩
  · rw [hrun, GetZabbixClient_eq_Load]
    exact SyncMap.Load_Store_same m _ c
  · intro hunset
    cases hs : c.SkipTLSVerify with
    | false => rfl
    | true =>
      have := hiff.mp hs
      rw [hunset] at this
      simp at this
  · intro ctx2 session2 m2 c2 hok2
    rw [(create_ok_client env ctx2 session2 m2 c2 hok2).2, hflag]

/-- Witness of C19: "1" skips verification, "yes" does not. -/
theorem create_skip_tls_flag_witness :
    (CreateZabbixClientForSession [("ZABBIX_SKIP_VERIFY", "1"), ("ZABBIX_TOKEN", "tok")] []
        { SessionID := "s1" } []).1
      = Except.ok { URL := "http://127.0.0.1/api_jsonrpc.php", AuthToken := "tok",
                    SkipTLSVerify := true }
    ∧ (({ URL := "http://127.0.0.1/api_jsonrpc.php", AuthToken := "tok",
          SkipTLSVerify := true } : ZabbixClient).SkipTLSVerify = true
        ↔ (LookupEnv [("ZABBIX_SKIP_VERIFY", "1"), ("ZABBIX_TOKEN", "tok")] ZabbixSkipTLSVerify
              = some "true"
          ∨ LookupEnv [("ZABBIX_SKIP_VERIFY", "1"), ("ZABBIX_TOKEN", "tok")] ZabbixSkipTLSVerify
              = some "1"))
    ∧ (CreateZabbixClientForSession [("ZABBIX_SKIP_VERIFY", "yes"), ("ZABBIX_TOKEN", "tok")]
        [("ZABBIX_SKIP_VERIFY", Any.str "true")] { SessionID := "s1" } []).1
      = Except.ok { URL := "http://127.0.0.1/api_jsonrpc.php", AuthToken := "tok",
                    SkipTLSVerify := false } :=
  ⟨by decide,
   (create_skip_tls_flag [("ZABBIX_SKIP_VERIFY", "1"), ("ZABBIX_TOKEN", "tok")] []
      { SessionID := "s1" } []
      { URL := "http://127.0.0.1/api_jsonrpc.php", AuthToken := "tok", SkipTLSVerify := true }
      (by decide)).1,
   by decide⟩

/-! ## Theorems: shutdown -/

/-- Counterexample to C20: after a signal, a shutdown that ends with the error
of the expired deadline makes `httpServerInit` return an error, and the
command ends the process by a fatal log record with exit code 1, while a
shutdown in time ends it with exit code 0. -/
theorem shutdown_deadline_is_fatal :
    httpServerInit (ServerEvent.signal "terminated" (some "context deadline exceeded"))
        = some "server shutdown error: context deadline exceeded"
      ∧ streamableHTTPRun none none
          (ServerEvent.signal "terminated" (some "context deadline exceeded"))
        = { Code := 1, Fatal := some "Failed to run HTTP server" }
      ∧ streamableHTTPRun none none (ServerEvent.signal "terminated" none)
        = { Code := 0, Fatal := none }
      ∧ (streamableHTTPRun none none
          (ServerEvent.signal "terminated" (some "context deadline exceeded"))).Code
        ≠ (streamableHTTPRun none none (ServerEvent.signal "terminated" none)).Code := by
  decide

/-- C20, amended: after a signal, when `srv.Shutdown` returns an error (the
drain deadline expired before the requests in flight finished),
`httpServerInit` returns that error wrapped as "server shutdown error: ...",
and the command reports it by a fatal log record, which ends the process with
exit code 1; when `srv.Shutdown` returns nil, `httpServerInit` returns nil and
the process ends with exit code 0. -/
theorem shutdown_error_exit_path (sig err : String) :
    httpServerInit (ServerEvent.signal sig (some err))
        = some ("server shutdown error: " ++ err)
      ∧ streamableHTTPRun none none (ServerEvent.signal sig (some err))
        = { Code := 1, Fatal := some "Failed to run HTTP server" }
      ∧ httpServerInit (ServerEvent.signal sig none) = none
      ∧ streamableHTTPRun none none (ServerEvent.signal sig none)
        = { Code := 0, Fatal := none } :=
  ⟨rfl, rfl, rfl, rfl⟩

/-! ## Theorems: health check, environment helper, query parameter -/

/-- C21: for every request, `HealthHandler` sets Content-Type to
"application/json", writes status 200 and appends the body
{"status": "healthy"}, so a response that has nothing written yet gets status
200 and exactly that body; it leaves the log as it is, and it is a function of
the request and the exchange alone (the registry is no argument of it). The
mux routes the path "/health" to `HealthHandler` itself, not to the middleware
stack. -/
theorem health_handler_answers (logger : Logger) (r : Request) (x : Exchange) :
    (HealthHandler logger r x).w.Header = x.w.Header.Set "Content-Type" "application/json"
      ∧ (HealthHandler logger r x).w.Header.Get "Content-Type" = "application/json"
      ∧ (HealthHandler logger r x).logs = x.logs
      ∧ (x.w.Status = none → (HealthHandler logger r x).w.Status = some 200
          ∧ (HealthHandler logger r x).w.Body = x.w.Body ++ healthBody)
      ∧ (x.w.Status = none → x.w.Body = "" → (HealthHandler logger r x).w.Body = healthBody)
      ∧ (∀ (env : Env) (endpointPath : String) (httpServer mux : Handler),
          httpServerMux env endpointPath httpServer logger = some mux →
          r.Path = "/health" → mux r x = HealthHandler logger r x) := by
  refine ⟨?_, ?_, ?_, ?_, ?_, ?_⟩
  · simp only [HealthHandler, ResponseWriter.Write, ResponseWriter.WriteHeader]
    cases x.w.Status <;> rfl
  · have h : (HealthHandler logger r x).w.Header
        = x.w.Header.Set "Content-Type" "application/json" := by
      simp only [HealthHandler, ResponseWriter.Write, ResponseWriter.WriteHeader]
      cases x.w.Status <;> rfl
    rw [h]
    simp [Header.Get, Header.values_Set]
  · rfl
  · intro hs
    simp [HealthHandler, ResponseWriter.Write, ResponseWriter.WriteHeader, hs]
  · intro hs hb
    simp [HealthHandler, ResponseWriter.Write, ResponseWriter.WriteHeader, hs, hb]
  · intro env endpointPath httpServer mux hmux hpath
    unfold httpServerMux at hmux
    split_ifs at hmux with h1
    simp only [Option.some.injEq] at hmux
    rw [← hmux]
    simp only [hpath, if_true]

/-- Witness of C21: GET /health on a fresh exchange gets status 200 and the
body; through the mux with the endpoint "/mcp" and CORS mode development it
gets the Content-Type header, no CORS header and no log record. -/
theorem health_handler_answers_witness :
    ((HealthHandler debugLogger
          { requestFrom "GET" "https://a.example" with Path := "/health" } freshExchange).w.Status
        = some 200
      ∧ (HealthHandler debugLogger
          { requestFrom "GET" "https://a.example" with Path := "/health" } freshExchange).w.Body
        = freshExchange.w.Body ++ healthBody)
    ∧ (httpServerMux [("MCP_CORS_MODE", "development")] "/mcp" okEndpoint debugLogger).map
        (fun mux => mux { requestFrom "GET" "https://a.example" with Path := "/health" }
          freshExchange)
      = some { w := { Header := [("Content-Type", ["application/json"])], Status := some 200,
                      Body := "\x7b\"status\": \"healthy\"\x7d" },
               logs := [] } :=
  ⟨(health_handler_answers debugLogger
      { requestFrom "GET" "https://a.example" with Path := "/health" } freshExchange).2.2.2.1 rfl,
   by decide⟩

/-- For C25 (`GetEnvWithFallback` against `getEnv`): for a variable that is
set to the empty string `getEnv` returns the empty string and
`GetEnvWithFallback` returns the fallback; the two agree whenever the variable
is unset or set to a non-empty value. -/
theorem env_helpers_differ_on_empty (env : Env) (key fallback : String) :
    getEnv [("MCP_ENDPOINT", "")] "MCP_ENDPOINT" "/mcp" = ""
      ∧ GetEnvWithFallback [("MCP_ENDPOINT", "")] "MCP_ENDPOINT" "/mcp" = "/mcp"
      ∧ (LookupEnv env key ≠ some "" →
          GetEnvWithFallback env key fallback = getEnv env key fallback)
      ∧ (LookupEnv env key = some "" →
          getEnv env key fallback = "" ∧ GetEnvWithFallback env key fallback = fallback) := by
  refine ⟨by decide, by decide, ?_, ?_⟩
  · intro h
    cases hl : LookupEnv env key with
    | none => simp [GetEnvWithFallback, Getenv, getEnv, hl]
    | some v =>
      have hv : v ≠ "" := fun hc => h (by rw [hl, hc])
      simp [GetEnvWithFallback, Getenv, getEnv, hl, hv]
  · intro h
    simp [GetEnvWithFallback, Getenv, getEnv, h]

/-- C27: when a request has a non-empty X-Zabbix-URL header and a non-empty
ZABBIX_URL query parameter, the scoped URL of the context that
`ZabbixContextMiddleware` hands to the next handler is the value of the query
parameter, and every client that `CreateZabbixClientForSession` creates from
that context has the value of the query parameter as its URL (so not the
value of the header when the two differ). -/
theorem query_url_wins_over_header (logger : Logger) (r : Request) (x : Exchange)
    (_hheader : r.Header.Get ZabbixHeaderURL ≠ "")
    (hquery : QueryGet r.Query "ZABBIX_URL" ≠ "") :
    ∃ ctx1 : Context,
      (∀ next : Handler, ZabbixContextMiddleware logger next r x = next { r with Ctx := ctx1 } x)
      ∧ ctx1.Value ZabbixURL = some (Any.str (QueryGet r.Query "ZABBIX_URL"))
      ∧ (∀ (env : Env) (session : ClientSession) (m : SyncMap) (c : ZabbixClient),
          (CreateZabbixClientForSession env ctx1 session m).1 = Except.ok c →
          c.URL = QueryGet r.Query "ZABBIX_URL"
            ∧ (r.Header.Get ZabbixHeaderURL ≠ QueryGet r.Query "ZABBIX_URL" →
                c.URL ≠ r.Header.Get ZabbixHeaderURL)) := by
  have hval : Context.Value
      ((if QueryGet r.Query "ZABBIX_URL" ≠ "" then
            [(ZabbixURL, Any.str (QueryGet r.Query "ZABBIX_URL"))] else [])
          ++ (if r.Header.Get ZabbixHeaderToken ≠ "" then
            [(ZabbixToken, Any.str (r.Header.Get ZabbixHeaderToken))] else [])
          ++ (if r.Header.Get ZabbixHeaderURL ≠ "" then
            [(ZabbixURL, Any.str (r.Header.Get ZabbixHeaderURL))] else [])
          ++ r.Ctx) ZabbixURL
      = some (Any.str (QueryGet r.Query "ZABBIX_URL")) := by
    rw [if_pos hquery]
    simp [Context.Value_cons]
  refine ⟨_, fun next => ZabbixContextMiddleware_eq logger next r x, hval, ?_⟩
  intro env session m c hok
  have hURL := create_ok_URL env _ session m c hok
  rw [hval] at hURL
  have hc : c.URL = QueryGet r.Query "ZABBIX_URL" := by
    rw [hURL]
    simp [stringAssert, hquery]
  exact ⟨hc, fun hne heq => hne (heq.symm.trans hc)⟩

/-- Witness of C27: header http://h/api and query parameter http://q/api give
the scoped URL http://q/api, and the client created from it has that URL. -/
theorem query_url_wins_over_header_witness :
    (∃ ctx1 : Context,
      (∀ next : Handler,
        ZabbixContextMiddleware debugLogger next
            { requestFrom "POST" "https://a.example" with
              Header := [("X-Zabbix-Url", ["http://h/api"])],
              Query := [("ZABBIX_URL", ["http://q/api"])] }
            freshExchange
          = next
              { requestFrom "POST" "https://a.example" with
                Header := [("X-Zabbix-Url", ["http://h/api"])],
                Query := [("ZABBIX_URL", ["http://q/api"])],
                Ctx := ctx1 }
              freshExchange)
      ∧ ctx1.Value ZabbixURL = some (Any.str "http://q/api"))
    ∧ (CreateZabbixClientForSession [("ZABBIX_TOKEN", "tok")]
          [("ZABBIX_URL", Any.str "http://q/api"), ("ZABBIX_URL", Any.str "http://h/api")]
          { SessionID := "s1" } []).1
        = Except.ok { URL := "http://q/api", AuthToken := "tok", SkipTLSVerify := false } := by
  constructor
  · obtain ⟨ctx1, hrun, hval, _⟩ :=
      query_url_wins_over_header debugLogger
        { requestFrom "POST" "https://a.example" with
          Header := [("X-Zabbix-Url", ["http://h/api"])],
          Query := [("ZABBIX_URL", ["http://q/api"])] }
        freshExchange (by decide) (by decide)
    exact ⟨ctx1, hrun, hval⟩
  · decide

/-! ## Theorems: tool handlers -/

/-- The limit that `getHistoryHandler` sets, for arguments with item ids. -/
theorem getHistoryHandler_limit (now : Int) (args : Arguments) (ids : String)
    (hids : args.get "itemids" = some (ArgValue.str ids)) (hne : ids ≠ "") :
    ∃ p, getHistoryHandler none now (some args) = HandlerStep.call "history.get" p
      ∧ p.Limit
        = (if (ArgValue.asFloat (args.get "limit")).2 = true
              ∧ (ArgValue.asFloat (args.get "limit")).1 > 0 then
            truncate (if (ArgValue.asFloat (args.get "limit")).1 > 1000 then 1000
              else (ArgValue.asFloat (args.get "limit")).1)
          else 10) := by
  simp only [getHistoryHandler, hids, ArgValue.asString]
  have h : (True ∧ ids ≠ "") := ⟨trivial, hne⟩
  rw [if_pos h]
  refine ⟨_, rfl, ?_⟩
  split_ifs <;> rfl

/-- A limit argument of at least 1 gives a limit between 1 and 1000: the
argument without its fraction, and 1000 when the argument is above 1000. -/
theorem getHistoryHandler_limit_ge_one (now : Int) (args : Arguments) (ids : String) (v : ℚ)
    (hids : args.get "itemids" = some (ArgValue.str ids)) (hne : ids ≠ "")
    (hlimit : args.get "limit" = some (ArgValue.num v)) (hv : 1 ≤ v) :
    ∃ p, getHistoryHandler none now (some args) = HandlerStep.call "history.get" p
      ∧ p.Limit = min ⌊v⌋ 1000 ∧ 1 ≤ p.Limit ∧ p.Limit ≤ 1000
      ∧ p.limitMember = some p.Limit := by
  obtain ⟨p, hp, hl⟩ := getHistoryHandler_limit now args ids hids hne
  have hpos : (0 : ℚ) < v := lt_of_lt_of_le one_pos hv
  have hfloor : (1 : Int) ≤ ⌊v⌋ := Int.le_floor.mpr (by exact_mod_cast hv)
  have hlim : p.Limit = min ⌊v⌋ 1000 := by
    rw [hl, hlimit]
    simp only [ArgValue.asFloat, gt_iff_lt, hpos, and_self, if_true]
    by_cases hbig : (1000 : ℚ) < v
    · rw [if_pos hbig]
      have h1000 : (1000 : Int) ≤ ⌊v⌋ := Int.le_floor.mpr (by exact_mod_cast le_of_lt hbig)
      simp [truncate, min_eq_right h1000]
    · rw [if_neg hbig]
      have hle : ⌊v⌋ ≤ (1000 : Int) := by
        have h2 : (⌊v⌋ : ℚ) ≤ 1000 := le_trans (Int.floor_le v) (not_lt.mp hbig)
        exact_mod_cast h2
      simp [truncate, le_of_lt hpos, min_eq_left hle]
  have h1 : 1 ≤ p.Limit := by rw [hlim]; exact le_min hfloor (by norm_num)
  refine ⟨p, hp, hlim, h1, ?_, ?_⟩
  · rw [hlim]; exact min_le_right _ _
  · have hne0 : p.Limit ≠ 0 := by omega
    simp [HistoryGetParams.limitMember, hne0]

/-- For C22 (the limit of `history.get`): with the limit argument 0.5 the
handler sets the limit 0, and the serialised parameters have no `limit` member
at all; with the argument 2500 the limit is 1000, and without a limit argument
it is 10. -/
theorem history_limit_below_one :
    getHistoryHandler none 1000000
        (some [("itemids", ArgValue.str "1, 2"), ("limit", ArgValue.num (1 / 2))])
      = HandlerStep.call "history.get"
          { Output := "extend", ItemIDs := ["1", "2"], HostIDs := [], History := 0,
            TimeFrom := 996400, TimeTill := 1000000, SortField := ["clock"],
            SortOrder := ["DESC"], Limit := 0 }
    ∧ HistoryGetParams.limitMember
        { Output := "extend", ItemIDs := ["1", "2"], HostIDs := [], History := 0,
          TimeFrom := 996400, TimeTill := 1000000, SortField := ["clock"],
          SortOrder := ["DESC"], Limit := 0 } = none
    ∧ getHistoryHandler none 1000000
        (some [("itemids", ArgValue.str "1, 2"), ("limit", ArgValue.num 2500)])
      = HandlerStep.call "history.get"
          { Output := "extend", ItemIDs := ["1", "2"], HostIDs := [], History := 0,
            TimeFrom := 996400, TimeTill := 1000000, SortField := ["clock"],
            SortOrder := ["DESC"], Limit := 1000 }
    ∧ getHistoryHandler none 1000000 (some [("itemids", ArgValue.str "1, 2")])
      = HandlerStep.call "history.get"
          { Output := "extend", ItemIDs := ["1", "2"], HostIDs := [], History := 0,
            TimeFrom := 996400, TimeTill := 1000000, SortField := ["clock"],
            SortOrder := ["DESC"], Limit := 10 } := by
  have hids : items.splitAndTrim "1, 2" = ["1", "2"] := by decide
  refine ⟨?_, by decide, ?_, ?_⟩
  · simp [getHistoryHandler, Arguments.get, ArgValue.asString, ArgValue.asFloat, hids]
    norm_num [truncate]
  · simp [getHistoryHandler, Arguments.get, ArgValue.asString, ArgValue.asFloat, hids]
    norm_num [truncate]
  · simp [getHistoryHandler, Arguments.get, ArgValue.asString, ArgValue.asFloat, hids]

theorem parseSeveritiesLoop_range (parts : List String) (result : List Int)
    (h : ∀ v ∈ result, 0 ≤ v ∧ v ≤ 5) :
    ∀ v ∈ parseSeveritiesLoop parts result, 0 ≤ v ∧ v ≤ 5 := by
  induction parts generalizing result with
  | nil => exact h
  | cons part rest ih =>
    simp only [parseSeveritiesLoop]
    split_ifs with h1 h2
    · apply ih
      intro v hv
      rcases List.mem_append.mp hv with hv | hv
      · exact h v hv
      · rw [List.mem_singleton] at hv
        rw [hv]
        exact h2
    · exact ih result h
    · exact ih result h

/-- Every element of the result of `parseSeverities` is between 0 and 5. -/
theorem parseSeverities_range (s : String) :
    ∀ v ∈ parseSeverities s, 0 ≤ v ∧ v ≤ 5 :=
  parseSeveritiesLoop_range (SplitComma s) [] (fun _ hv => absurd hv (List.not_mem_nil _))

/-- For C29 (`parseSeverities`): the field "high" is not a number, the scan
fails and leaves the severity 0, and 0 is appended: the input "high" gives
[0], and "3,high,7" gives [3, 0]; a field that starts with a number counts as
that number ("2abc" gives [2]). -/
theorem parseSeverities_non_number :
    parseSeverities "high" = [0]
      ∧ parseSeverities "3,high,7" = [3, 0]
      ∧ parseSeverities "2abc" = [2]
      ∧ parseSeverities "3, 5,1" = [3, 5, 1] := by
  decide

/-- For C30 (`unlink_template`): for every client outcome, host id, template
id list and other arguments, the handler does the same with the argument
clear set to false, set to true, and absent: with a host id and template ids
it calls `host.update` with the templates under the key templates_clear in
each case. -/
theorem unlink_same_for_every_clear (clientErr : Option String) (hostid templateids : String)
    (rest : Arguments) :
    unlinkTemplateHandler clientErr
        (some (("hostid", ArgValue.str hostid) :: ("templateids", ArgValue.str templateids)
          :: ("clear", ArgValue.bool false) :: rest))
      = unlinkTemplateHandler clientErr
        (some (("hostid", ArgValue.str hostid) :: ("templateids", ArgValue.str templateids)
          :: ("clear", ArgValue.bool true) :: rest))
    ∧ unlinkTemplateHandler clientErr
        (some [("hostid", ArgValue.str hostid), ("templateids", ArgValue.str templateids)])
      = unlinkTemplateHandler clientErr
        (some (("hostid", ArgValue.str hostid) :: ("templateids", ArgValue.str templateids)
          :: ("clear", ArgValue.bool true) :: rest))
    ∧ unlinkTemplateHandler none
        (some [("hostid", ArgValue.str "10084"), ("templateids", ArgValue.str "10001, 10002"),
          ("clear", ArgValue.bool false)])
      = HandlerStep.call "host.update"
          [("hostid", ParamValue.str "10084"),
           ("templates_clear",
             ParamValue.maps [[("templateid", "10001")], [("templateid", "10002")]])] := by
  refine ⟨?_, ?_, by decide⟩
  · cases clientErr <;>
      simp [unlinkTemplateHandler, Arguments.get, ArgValue.asString, ArgValue.asBool]
  · cases clientErr <;>
      simp [unlinkTemplateHandler, Arguments.get, ArgValue.asString, ArgValue.asBool]

/-! ## Theorems: the endpoint path -/

/-- A cleaned path that was given with a leading slash begins with a slash. -/
theorem Clean_slash_prefixed (endpoint : String) :
    (Clean ("/" ++ endpoint)).data.head? = some '/' := by
  have h : ("/" ++ endpoint).data = '/' :: endpoint.data := by
    rw [String.data_append]
    rfl
  simp [Clean, h, cleanChars]

theorem getEndpointPath_slash (env : Env) (cmd : Option Command) :
    (getEndpointPath env cmd).data.head? = some '/' := by
  unfold getEndpointPath
  cases cmd with
  | none =>
    simp only []
    split_ifs
    · exact Clean_slash_prefixed _
    · rfl
  | some c =>
    simp only []
    by_cases h1 : (c.GetString "endpoint").1 ≠ ""
    · rw [if_pos h1]
      exact Clean_slash_prefixed _
    · rw [if_neg h1]
      simp only []
      split_ifs
      · exact Clean_slash_prefixed _
      · rfl

/-- With a non-empty endpoint flag the result is the cleaned, slash-prefixed
value of the flag; without a command, or with a command whose endpoint flag is
undefined or empty, it is the cleaned, slash-prefixed `MCP_ENDPOINT` when that
is non-empty, and "/mcp" otherwise. -/
theorem getEndpointPath_cases (env : Env) (cmd : Command) :
    ((cmd.GetString "endpoint").1 ≠ "" →
        getEndpointPath env (some cmd) = Clean ("/" ++ (cmd.GetString "endpoint").1))
      ∧ ((cmd.GetString "endpoint").1 = "" →
          getEndpointPath env (some cmd) = getEndpointPath env none)
      ∧ (Getenv env "MCP_ENDPOINT" ≠ "" →
          getEndpointPath env none = Clean ("/" ++ Getenv env "MCP_ENDPOINT"))
      ∧ (Getenv env "MCP_ENDPOINT" = "" → getEndpointPath env none = "/mcp") := by
  refine ⟨?_, ?_, ?_, ?_⟩
  · intro h
    simp only [getEndpointPath, if_pos h]
  · intro h
    simp [getEndpointPath, h]
  · intro h
    simp [getEndpointPath, h]
  · intro h
    simp [getEndpointPath, h, DefaultEndPointPath]

/-- For C26 (`getEndpointPath`): on the commands stdio, streamable-http and
http the endpoint flag has the default "/mcp", so without the flag on the
command line the result is "/mcp" whatever `MCP_ENDPOINT` holds (with
`MCP_ENDPOINT` set to "/api" it is "/mcp", not "/api"); on the root command,
which has no endpoint flag, the same environment gives "/api". A flag given on
the command line gives its cleaned, slash-prefixed value, and every result
begins with "/". -/
theorem endpoint_env_unread_on_subcommands (env : Env) (cmd : Option Command) :
    getEndpointPath [("MCP_ENDPOINT", "/api")] (some subCmd) = "/mcp"
      ∧ getEndpointPath [("MCP_ENDPOINT", "/api")] (some rootCmd) = "/api"
      ∧ getEndpointPath env (some subCmd) = "/mcp"
      ∧ getEndpointPath [("MCP_ENDPOINT", "/api")] (some (subCmd.setFlag "endpoint" "v1/mcp/"))
        = "/v1/mcp"
      ∧ (getEndpointPath env cmd).data.head? = some '/' := by
  refine ⟨by decide, by decide, ?_, by decide, getEndpointPath_slash env cmd⟩
  have h : (subCmd.GetString "endpoint").1 = "/mcp" := by decide
  have hne : (subCmd.GetString "endpoint").1 ≠ "" := by decide
  rw [(getEndpointPath_cases env subCmd).1 hne, h]
  decide

/-! ## Theorems: splitting and trimming -/

theorem splitChars_ne_nil (sep : Char) (cs : List Char) : splitChars sep cs ≠ [] := by
  cases cs with
  | nil => simp [splitChars]
  | cons c cs =>
    simp only [splitChars]
    split_ifs
    · simp
    · split <;> simp

theorem splitChars_cons_sep (sep : Char) (cs : List Char) :
    splitChars sep (sep :: cs) = [] :: splitChars sep cs := by
  simp [splitChars]

theorem splitChars_cons_other (sep c : Char) (cs : List Char) (h : c ≠ sep) :
    ∃ field fields, splitChars sep cs = field :: fields
      ∧ splitChars sep (c :: cs) = (c :: field) :: fields := by
  cases hs : splitChars sep cs with
  | nil => exact absurd hs (splitChars_ne_nil sep cs)
  | cons field fields =>
    refine ⟨field, fields, rfl, ?_⟩
    simp [splitChars, h, hs]

/-- No field of a split holds the separator. -/
theorem splitChars_no_sep (sep : Char) (cs : List Char) :
    ∀ field ∈ splitChars sep cs, sep ∉ field := by
  induction cs with
  | nil => simp [splitChars]
  | cons c cs ih =>
    by_cases h : c = sep
    · subst h
      rw [splitChars_cons_sep]
      intro field hf
      rcases List.mem_cons.mp hf with hf | hf
      · rw [hf]; simp
      · exact ih field hf
    · obtain ⟨field, fields, hs, hc⟩ := splitChars_cons_other sep c cs h
      rw [hc]
      rw [hs] at ih
      intro f hf
      rcases List.mem_cons.mp hf with hf | hf
      · rw [hf]
        intro hmem
        rcases List.mem_cons.mp hmem with hm | hm
        · exact h hm.symm
        · exact ih field (List.mem_cons_self _ _) hm
      · exact ih f (List.mem_cons_of_mem _ hf)

/-- The characters of the fields of a split are characters of the input. -/
theorem splitChars_mem (sep : Char) (cs : List Char) :
    ∀ field ∈ splitChars sep cs, ∀ c ∈ field, c ∈ cs := by
  induction cs with
  | nil => simp [splitChars]
  | cons c cs ih =>
    by_cases h : c = sep
    · subst h
      rw [splitChars_cons_sep]
      intro field hf x hx
      rcases List.mem_cons.mp hf with hf | hf
      · rw [hf] at hx; simp at hx
      · exact List.mem_cons_of_mem _ (ih field hf x hx)
    · obtain ⟨field, fields, hs, hc⟩ := splitChars_cons_other sep c cs h
      rw [hc]
      rw [hs] at ih
      intro f hf x hx
      rcases List.mem_cons.mp hf with hf | hf
      · rw [hf] at hx
        rcases List.mem_cons.mp hx with hx | hx
        · rw [hx]; exact List.mem_cons_self _ _
        · exact List.mem_cons_of_mem _ (ih field (List.mem_cons_self _ _) x hx)
      · exact List.mem_cons_of_mem _ (ih f (List.mem_cons_of_mem _ hf) x hx)

theorem splitChars_of_no_sep (sep : Char) (field : List Char) (h : sep ∉ field) :
    splitChars sep field = [field] := by
  induction field with
  | nil => rfl
  | cons c cs ih =>
    have hc : c ≠ sep := fun hc => h (hc ▸ List.mem_cons_self _ _)
    have hcs : sep ∉ cs := fun hm => h (List.mem_cons_of_mem _ hm)
    simp [splitChars, hc, ih hcs]

theorem splitChars_append_sep (sep : Char) (field rest : List Char) (h : sep ∉ field) :
    splitChars sep (field ++ sep :: rest) = field :: splitChars sep rest := by
  induction field with
  | nil => simp [splitChars]
  | cons c cs ih =>
    have hc : c ≠ sep := fun hc => h (hc ▸ List.mem_cons_self _ _)
    have hcs : sep ∉ cs := fun hm => h (List.mem_cons_of_mem _ hm)
    simp [splitChars, hc, ih hcs]

theorem intercalate_cons_cons (sep : Char) (f g : List Char) (rest : List (List Char)) :
    List.intercalate [sep] (f :: g :: rest) = f ++ sep :: List.intercalate [sep] (g :: rest) := by
  simp [List.intercalate, List.intersperse]

/-- Splitting the join of fields without the separator gives the fields. -/
theorem splitChars_intercalate (sep : Char) (fields : List (List Char)) (hne : fields ≠ [])
    (h : ∀ field ∈ fields, sep ∉ field) :
    splitChars sep (List.intercalate [sep] fields) = fields := by
  induction fields with
  | nil => exact absurd rfl hne
  | cons f rest ih =>
    cases rest with
    | nil =>
      have hf : List.intercalate [sep] [f] = f := by simp [List.intercalate, List.intersperse]
      rw [hf]
      exact splitChars_of_no_sep sep f (h f (List.mem_cons_self _ _))
    | cons g rest =>
      rw [intercalate_cons_cons, splitChars_append_sep sep f _ (h f (List.mem_cons_self _ _)),
        ih (by simp) (fun field hf => h field (List.mem_cons_of_mem _ hf))]

theorem trimChars_eq (p : Char → Bool) (cs : List Char) :
    trimChars p cs = List.rdropWhile p (cs.dropWhile p) := rfl

theorem trimChars_mem (p : Char → Bool) (cs : List Char) :
    ∀ c ∈ trimChars p cs, c ∈ cs := by
  intro c hc
  rw [trimChars_eq] at hc
  exact (List.dropWhile_sublist p).subset ((List.rdropWhile_prefix p _).subset hc)

/-- A trimmed list does not start with a trimmed character. -/
theorem trimChars_head (p : Char → Bool) (cs : List Char) :
    ∀ c, (trimChars p cs).head? = some c → p c = false := by
  intro c hc
  rw [trimChars_eq] at hc
  obtain ⟨t, ht⟩ := List.rdropWhile_prefix p (cs.dropWhile p)
  have hd := List.head?_dropWhile_not p cs
  cases hr : List.rdropWhile p (cs.dropWhile p) with
  | nil => rw [hr] at hc; simp at hc
  | cons a rest =>
    rw [hr] at hc ht
    simp only [List.head?_cons, Option.some.injEq] at hc
    rw [← ht] at hd
    simp only [List.cons_append, List.head?_cons] at hd
    rw [← hc]
    exact hd

/-- A trimmed list does not end with a trimmed character. -/
theorem trimChars_last (p : Char → Bool) (cs : List Char) :
    ∀ c, (trimChars p cs).getLast? = some c → p c = false := by
  intro c hc
  rw [trimChars_eq] at hc
  by_cases hne : List.rdropWhile p (cs.dropWhile p) = []
  · rw [hne] at hc; simp at hc
  · have h := List.rdropWhile_last_not p (cs.dropWhile p) hne
    rw [List.getLast?_eq_getLast _ hne] at hc
    simp only [Option.some.injEq] at hc
    rw [← hc]
    simpa using h

/-- Trimming leaves a list that neither starts nor ends with a trimmed character. -/
theorem trimChars_of_trimmed (p : Char → Bool) (cs : List Char)
    (hhead : ∀ c, cs.head? = some c → p c = false)
    (hlast : ∀ c, cs.getLast? = some c → p c = false) :
    trimChars p cs = cs := by
  have hd : cs.dropWhile p = cs := by
    cases cs with
    | nil => rfl
    | cons a rest =>
      have ha : p a = false := hhead a rfl
      simp [List.dropWhile, ha]
  rw [trimChars_eq, hd, List.rdropWhile_eq_self_iff]
  intro hl
  have h := hlast (cs.getLast hl) (List.getLast?_eq_getLast _ hl)
  simp [h]

theorem trimChars_idempotent (p : Char → Bool) (cs : List Char) :
    trimChars p (trimChars p cs) = trimChars p cs :=
  trimChars_of_trimmed p _ (trimChars_head p cs) (trimChars_last p cs)

theorem dropWhile_congr_mem (p q : Char → Bool) (cs : List Char)
    (h : ∀ c ∈ cs, p c = q c) : cs.dropWhile p = cs.dropWhile q := by
  induction cs with
  | nil => rfl
  | cons a rest ih =>
    have ha : p a = q a := h a (List.mem_cons_self _ _)
    have hrest : ∀ c ∈ rest, p c = q c := fun c hc => h c (List.mem_cons_of_mem _ hc)
    simp only [List.dropWhile, ← ha]
    cases p a
    · rfl
    · exact ih hrest

/-- Two predicates that agree on the characters of a list trim it alike. -/
theorem trimChars_congr (p q : Char → Bool) (cs : List Char)
    (h : ∀ c ∈ cs, p c = q c) : trimChars p cs = trimChars q cs := by
  unfold trimChars
  rw [← dropWhile_congr_mem p q cs h]
  congr 1
  apply dropWhile_congr_mem
  intro c hc
  exact h c ((List.dropWhile_sublist p).subset (List.mem_reverse.mp hc))

theorem trimSpaceChars_eq (cs : List Char) : trimSpaceChars cs = trimChars isSpace cs := rfl

theorem String_mk_ne_empty (cs : List Char) : String.mk cs ≠ "" ↔ cs ≠ [] := by
  constructor
  · intro h hc
    exact h (by rw [hc])
  · intro h hc
    exact h (congrArg String.data hc)

/-- The loop that appends trimmed parts: the parts trimmed, the empty ones dropped. -/
theorem appendTrimmed_eq (trimFn : String → String) (parts result : List String) :
    appendTrimmed trimFn parts result
      = result ++ (parts.map trimFn).filter (fun t => decide (t ≠ "")) := by
  induction parts generalizing result with
  | nil => simp [appendTrimmed]
  | cons part rest ih =>
    simp only [appendTrimmed]
    split_ifs with h
    · rw [ih]
      simp [List.filter, h]
    · rw [ih]
      simp only [ne_eq, not_not] at h
      simp [List.filter, h]

theorem utils_SplitAndTrim_eq (s : String) :
    utils.SplitAndTrim s
      = ((SplitComma s).map TrimSpace).filter (fun t => decide (t ≠ "")) := by
  unfold utils.SplitAndTrim
  by_cases h : s = ""
  · rw [if_pos h, h]
    decide
  · rw [if_neg h, appendTrimmed_eq]
    simp

/-- The elements of `utils.SplitAndTrim s` are the trimmed, non-empty fields. -/
theorem utils_SplitAndTrim_mem (s : String) (e : String) (he : e ∈ utils.SplitAndTrim s) :
    ∃ field ∈ splitChars ',' s.data, e = String.mk (trimSpaceChars field)
      ∧ trimSpaceChars field ≠ [] := by
  rw [utils_SplitAndTrim_eq] at he
  simp only [List.mem_filter, List.mem_map, SplitComma, decide_eq_true_eq] at he
  obtain ⟨⟨part, ⟨field, hfield, hpart⟩, hpe⟩, hne⟩ := he
  refine ⟨field, hfield, ?_, ?_⟩
  · rw [← hpe, ← hpart]
    rfl
  · rw [← hpe, ← hpart] at hne
    exact (String_mk_ne_empty _).mp hne

theorem JoinComma_data (parts : List String) :
    (JoinComma parts).data = List.intercalate [','] (parts.map String.data) := rfl

/-- C24: `utils.SplitAndTrim s` is the list of the comma-separated fields of
`s`, each trimmed of white space at both ends, without the empty ones, in the
order of the input; so no element is empty, holds a comma, or starts or ends
with white space (trimming it again changes nothing), the empty string gives
the empty list, and splitting the comma-join of the result gives the result
again. -/
theorem split_and_trim_fields (s : String) :
    utils.SplitAndTrim s
        = ((SplitComma s).map TrimSpace).filter (fun t => decide (t ≠ ""))
      ∧ (∀ e ∈ utils.SplitAndTrim s,
          e ≠ "" ∧ ',' ∉ e.data ∧ TrimSpace e = e
            ∧ (∀ c, e.data.head? = some c → isSpace c = false)
            ∧ (∀ c, e.data.getLast? = some c → isSpace c = false))
      ∧ utils.SplitAndTrim "" = []
      ∧ utils.SplitAndTrim (JoinComma (utils.SplitAndTrim s)) = utils.SplitAndTrim s := by
  have hmem : ∀ e ∈ utils.SplitAndTrim s,
      e ≠ "" ∧ ',' ∉ e.data ∧ TrimSpace e = e
        ∧ (∀ c, e.data.head? = some c → isSpace c = false)
        ∧ (∀ c, e.data.getLast? = some c → isSpace c = false) := by
    intro e he
    obtain ⟨field, hfield, hdef, hne⟩ := utils_SplitAndTrim_mem s e he
    have hdata : e.data = trimSpaceChars field := by rw [hdef]
    refine ⟨?_, ?_, ?_, ?_, ?_⟩
    · rw [hdef]
      exact (String_mk_ne_empty _).mpr hne
    · rw [hdata]
      intro hc
      exact splitChars_no_sep ',' s.data field hfield (trimChars_mem isSpace field ',' hc)
    · simp only [TrimSpace, hdata]
      rw [trimSpaceChars_eq, trimSpaceChars_eq, trimChars_idempotent, hdef]
      rfl
    · rw [hdata]
      exact trimChars_head isSpace field
    · rw [hdata]
      exact trimChars_last isSpace field
  refine ⟨utils_SplitAndTrim_eq s, hmem, by decide, ?_⟩
  by_cases hnil : utils.SplitAndTrim s = []
  · rw [hnil]
    decide
  · have hsplit : SplitComma (JoinComma (utils.SplitAndTrim s)) = utils.SplitAndTrim s := by
      unfold SplitComma
      rw [JoinComma_data, splitChars_intercalate]
      · rw [List.map_map]
        exact List.map_id _
      · simpa using hnil
      · intro field hf
        obtain ⟨e, he, hfe⟩ := List.mem_map.mp hf
        rw [← hfe]
        exact (hmem e he).2.1
    rw [utils_SplitAndTrim_eq (JoinComma (utils.SplitAndTrim s)), hsplit]
    have hmap : (utils.SplitAndTrim s).map TrimSpace = utils.SplitAndTrim s := by
      conv_rhs => rw [← List.map_id (utils.SplitAndTrim s)]
      exact List.map_congr_left (fun e he => (hmem e he).2.2.1)
    rw [hmap, List.filter_eq_self]
    intro e he
    simpa using (hmem e he).1

theorem splitStringLoop_comma (cs field : List Char) (result : List String)
    (hfield : ',' ∉ field) :
    splitStringLoop [','] cs 0 field result
      = result ++ (splitChars ',' (field ++ cs)).map String.mk := by
  induction cs generalizing field result with
  | nil =>
    simp [splitStringLoop, splitChars_of_no_sep ',' field hfield]
  | cons c cs ih =>
    by_cases hc : c = ','
    · subst hc
      have hpre : List.isPrefixOf [','] (',' :: cs) = true := by simp [List.isPrefixOf]
      simp only [splitStringLoop, hpre, if_true, List.length_singleton, Nat.sub_self]
      rw [ih [] _ (by simp), splitChars_append_sep ',' field cs hfield]
      simp
    · have hpre : List.isPrefixOf [','] (c :: cs) = false := by
        simp [List.isPrefixOf]
        exact fun h => hc h.symm
      simp only [splitStringLoop, hpre, Bool.false_eq_true, if_false]
      have hfield2 : ',' ∉ field ++ [c] := by
        simp only [List.mem_append, List.mem_singleton, not_or]
        exact ⟨hfield, fun h => hc h.symm⟩
      rw [ih (field ++ [c]) result hfield2]
      simp

/-- The function `splitString` of package `hosts` splits at commas as
`strings.Split` does. -/
theorem hosts_splitString_comma (s : String) : hosts.splitString s "," = SplitComma s := by
  have h : (",").data = [','] := rfl
  unfold hosts.splitString SplitComma
  rw [h, splitStringLoop_comma s.data [] [] (by simp)]
  simp

theorem splitTrimLoop_eq (cs field : List Char) (result : List String)
    (hfield : ',' ∉ field) :
    splitTrimLoop cs field result
      = result ++ (((splitChars ',' (field ++ cs)).map String.mk).map trim).filter
          (fun t => decide (t ≠ "")) := by
  induction cs generalizing field result with
  | nil =>
    simp only [splitTrimLoop, List.append_nil, splitChars_of_no_sep ',' field hfield]
    split_ifs with h
    · simp [List.filter, h]
    · simp only [ne_eq, not_not] at h
      simp [List.filter, h]
  | cons c cs ih =>
    by_cases hc : c = ','
    · subst hc
      simp only [splitTrimLoop, if_true]
      rw [splitChars_append_sep ',' field cs hfield]
      split_ifs with h
      · rw [ih [] _ (by simp)]
        simp [List.filter, h]
      · rw [ih [] _ (by simp)]
        simp only [ne_eq, not_not] at h
        simp [List.filter, h]
    · simp only [splitTrimLoop, if_neg hc]
      have hfield2 : ',' ∉ field ++ [c] := by
        simp only [List.mem_append, List.mem_singleton, not_or]
        exact ⟨hfield, fun h => hc h.symm⟩
      rw [ih (field ++ [c]) result hfield2]
      simp

/-- The splitter of package `triggers`: the fields trimmed of ' ', without the empty ones. -/
theorem triggers_splitAndTrim_eq (s : String) :
    triggers.splitAndTrim s
      = ((SplitComma s).map trim).filter (fun t => decide (t ≠ "")) := by
  unfold triggers.splitAndTrim SplitComma
  rw [splitTrimLoop_eq s.data [] [] (by simp)]
  simp

/-- The splitter of package `hosts`: the fields trimmed of ' ' and tab,
without the empty ones. -/
theorem hosts_splitAndTrim_eq (s : String) :
    hosts.splitAndTrim s
      = ((SplitComma s).map hosts.trimSpace).filter (fun t => decide (t ≠ "")) := by
  unfold hosts.splitAndTrim
  rw [hosts_splitString_comma, appendTrimmed_eq]
  simp

theorem isSpace_space : isSpace ' ' = true := by decide

theorem isSpace_tab : isSpace '\t' = true := by decide

/-- Splitters whose trim predicates agree on the characters of the input agree. -/
theorem splitters_congr (p q : Char → Bool) (s : String)
    (h : ∀ c ∈ s.data, p c = q c) :
    ((SplitComma s).map (fun part => String.mk (trimChars p part.data))).filter
        (fun t => decide (t ≠ ""))
      = ((SplitComma s).map (fun part => String.mk (trimChars q part.data))).filter
        (fun t => decide (t ≠ "")) := by
  congr 1
  apply List.map_congr_left
  intro part hpart
  obtain ⟨field, hfield, hmk⟩ := List.mem_map.mp hpart
  rw [← hmk]
  congr 1
  apply trimChars_congr
  intro c hc
  exact h c (splitChars_mem ',' s.data field hfield c hc)

/-- Counterexample to C28: on the input tab, "1" the splitter of `hosts` and
`utils.SplitAndTrim` give ["1"] and the splitter of `triggers` keeps the tab;
on the input "1", newline the splitter of `hosts` keeps the newline that
`utils.SplitAndTrim` trims. -/
theorem splitters_differ_on_tab :
    hosts.splitAndTrim "\t1" = ["1"]
      ∧ triggers.splitAndTrim "\t1" = ["\t1"]
      ∧ utils.SplitAndTrim "\t1" = ["1"]
      ∧ hosts.splitAndTrim "1\n" = ["1\n"]
      ∧ utils.SplitAndTrim "1\n" = ["1"]
      ∧ triggers.splitAndTrim "\t1" ≠ utils.SplitAndTrim "\t1"
      ∧ hosts.splitAndTrim "1\n" ≠ utils.SplitAndTrim "1\n" := by
  decide

/-- C28, amended: on every input in which the only white-space character is
the space ' ', the splitters of `hosts` and of `triggers` and
`utils.SplitAndTrim` return the same list; on every input in which the only
white-space characters are the space and the tab, the splitter of `hosts` and
`utils.SplitAndTrim` return the same list. -/
theorem splitters_agree_on_spaces (s : String) :
    ((∀ c ∈ s.data, isSpace c = true → c = ' ') →
        hosts.splitAndTrim s = utils.SplitAndTrim s
          ∧ triggers.splitAndTrim s = utils.SplitAndTrim s)
      ∧ ((∀ c ∈ s.data, isSpace c = true → c = ' ' ∨ c = '\t') →
          hosts.splitAndTrim s = utils.SplitAndTrim s) := by
  have hhosts : (∀ c ∈ s.data, isSpace c = true → c = ' ' ∨ c = '\t') →
      hosts.splitAndTrim s = utils.SplitAndTrim s := by
    intro h
    rw [hosts_splitAndTrim_eq, utils_SplitAndTrim_eq]
    have hcongr := splitters_congr (fun c => c = ' ' || c = '\t') isSpace s (by
      intro c hc
      cases hsp : isSpace c with
      | true =>
        rcases h c hc hsp with h1 | h1 <;> simp [h1]
      | false =>
        have h1 : c ≠ ' ' := fun hx => by rw [hx, isSpace_space] at hsp; cases hsp
        have h2 : c ≠ '\t' := fun hx => by rw [hx, isSpace_tab] at hsp; cases hsp
        simp [h1, h2])
    exact hcongr
  refine ⟨fun h => ⟨hhosts (fun c hc hsp => Or.inl (h c hc hsp)), ?_⟩, hhosts⟩
  rw [triggers_splitAndTrim_eq, utils_SplitAndTrim_eq]
  have hcongr := splitters_congr (fun c => c = ' ') isSpace s (by
    intro c hc
    cases hsp : isSpace c with
    | true => simp [h c hc hsp]
    | false =>
      have h1 : c ≠ ' ' := fun hx => by rw [hx, isSpace_space] at hsp; cases hsp
      simp [h1])
  exact hcongr

/-- Witness of C28, amended: the input " 10084 ,10085,, 10086" has no white
space but spaces, and the three splitters give the same three ids. -/
theorem splitters_agree_on_spaces_witness :
    (hosts.splitAndTrim " 10084 ,10085,, 10086" = utils.SplitAndTrim " 10084 ,10085,, 10086"
        ∧ triggers.splitAndTrim " 10084 ,10085,, 10086"
          = utils.SplitAndTrim " 10084 ,10085,, 10086")
      ∧ utils.SplitAndTrim " 10084 ,10085,, 10086" = ["10084", "10085", "10086"] :=
  ⟨(splitters_agree_on_spaces " 10084 ,10085,, 10086").1 (by decide), by decide⟩

/-! ## Theorems: searching the documentation -/

theorem wrapInt_of_range (x : Int) (hlo : -9223372036854775808 ≤ x)
    (hhi : x < 9223372036854775808) : wrapInt x = x := by
  unfold wrapInt
  omega

theorem snippetLoop_eq (lines : List String) (i : Int) (left k : Nat) (snippet : String) :
    snippetLoop lines i left (k : Int) snippet
      = (List.range' k left).foldl
          (fun (acc : String) (j : Nat) => acc ++ snippetLine lines i (j : Int)) snippet := by
  induction left generalizing k snippet with
  | zero => rfl
  | succ left ih =>
    have hk : ((k : Int) + 1) = ((k + 1 : Nat) : Int) := by push_cast; rfl
    simp only [snippetLoop, List.range'_succ, List.foldl_cons]
    rw [hk, ih]

/-- Without overflow, the snippet of the code at a line of the document is
the promised snippet. -/
theorem searchSnippet_eq (lines : List String) (c i : Nat) (hi : i < lines.length)
    (hbound : lines.length + c < 9223372036854775808) :
    searchSnippet lines i (c : Int) = snippetOfMatch lines c i := by
  have h1 : wrapInt ((i : Int) - (c : Int)) = (i : Int) - (c : Int) :=
    wrapInt_of_range _ (by omega) (by omega)
  have h2 : wrapInt ((i : Int) + (c : Int)) = (i : Int) + (c : Int) :=
    wrapInt_of_range _ (by omega) (by omega)
  have h3 : wrapInt ((i : Int) + (c : Int) + 1) = (i : Int) + (c : Int) + 1 :=
    wrapInt_of_range _ (by omega) (by omega)
  have hstart : goMax 0 ((i : Int) - (c : Int)) = ((i - c : Nat) : Int) := by
    unfold goMax
    split_ifs <;> omega
  have hstop : goMin (lines.length : Int) ((i : Int) + (c : Int) + 1)
      = ((min lines.length (i + c + 1) : Nat) : Int) := by
    unfold goMin
    split_ifs <;> omega
  have hcount : (((min lines.length (i + c + 1) : Nat) : Int) - ((i - c : Nat) : Int)).toNat
      = min lines.length (i + c + 1) - (i - c) := by
    omega
  simp only [searchSnippet, h1, h2, h3, hstart, hstop, hcount, snippetLoop_eq]
  rfl

theorem searchLoop_eq (lower : Char → Char) (lines : List String) (searchLower : String)
    (contextLines : Int) (rest : List String) (i : Nat) (results : List String)
    (hlen : results.length < 10) :
    searchLoop lower lines searchLower contextLines rest i results
      = (results ++ ((rest.enumFrom i).filter
            (fun e => Contains (ToLower lower e.2) searchLower)).map
            (fun e => searchSnippet lines e.1 contextLines)).take 10 := by
  induction rest generalizing i results with
  | nil =>
    simp only [searchLoop, List.enumFrom_nil, List.filter_nil, List.map_nil, List.append_nil]
    exact (List.take_of_length_le (by omega)).symm
  | cons line rest ih =>
    simp only [searchLoop, List.enumFrom_cons]
    by_cases hmatch : Contains (ToLower lower line) searchLower = true
    · simp only [hmatch, if_true, List.filter_cons_of_pos, List.map_cons]
      by_cases hfull : (results ++ [searchSnippet lines i contextLines]).length ≥ 10
      · rw [if_pos hfull]
        have hten : (results ++ [searchSnippet lines i contextLines]).length = 10 := by
          simp only [List.length_append, List.length_singleton] at hfull ⊢
          omega
        have happ : results ++ searchSnippet lines i contextLines
              :: ((rest.enumFrom (i + 1)).filter
                  (fun e => Contains (ToLower lower e.2) searchLower)).map
                  (fun e => searchSnippet lines e.1 contextLines)
            = (results ++ [searchSnippet lines i contextLines])
              ++ ((rest.enumFrom (i + 1)).filter
                  (fun e => Contains (ToLower lower e.2) searchLower)).map
                  (fun e => searchSnippet lines e.1 contextLines) := by simp
        rw [happ, List.take_left' hten]
      · rw [if_neg hfull, ih (i + 1) _ (by omega)]
        simp
    · have hfalse : Contains (ToLower lower line) searchLower = false := by
        cases h : Contains (ToLower lower line) searchLower
        · rfl
        · exact absurd h hmatch
      simp only [hfalse, Bool.false_eq_true, if_false]
      rw [ih (i + 1) results hlen]
      simp [hfalse]

/-- Counterexample to C23: with the context size 9223372036854775807 (the
largest `int`) the sum `i + contextLines + 1` wraps around to a negative end
index, the loop over the lines of the snippet does not run, and the snippet
of the match at the one line "a" holds no line, where the description promises
the marked line. -/
theorem search_context_overflow :
    searchInDoc Char.toLower ["a"] "a" 9223372036854775807
        = ["**Match at line 1:**\n```\n```\n"]
      ∧ searchResults Char.toLower ["a"] "a" 9223372036854775807
        = ["**Match at line 1:**\n```\n>>> a <<<\n```\n"]
      ∧ searchInDoc Char.toLower ["a"] "a" 9223372036854775807
        ≠ searchResults Char.toLower ["a"] "a" 9223372036854775807 := by
  decide

/-- C23, amended: for every document of n lines, search term and context size
c with n + c below 2^63 (so that no index computation overflows),
`searchInDoc` returns one snippet per line that contains the term without
regard to case, in the order of the document, for the first 10 such lines and
no more; the snippet for a match at index i has the heading with line number
i + 1, then the lines max(0, i - c) to min(n - 1, i + c) in order with only
line i marked, then the closing fence. -/
theorem search_in_doc_within_range (lower : Char → Char) (lines : List String)
    (searchTerm : String) (c : Nat)
    (hbound : lines.length + c < 9223372036854775808) :
    searchInDoc lower lines searchTerm (c : Int) = searchResults lower lines searchTerm c := by
  unfold searchInDoc searchResults
  rw [searchLoop_eq lower lines _ _ lines 0 [] (by simp)]
  have hmap : ((lines.enum.filter
        (fun e => Contains (ToLower lower e.2) (ToLower lower searchTerm))).map
        (fun e => searchSnippet lines e.1 (c : Int)))
      = ((lines.enum.filter
        (fun e => Contains (ToLower lower e.2) (ToLower lower searchTerm))).map
        (fun e => e.1)).map (snippetOfMatch lines c) := by
    rw [List.map_map]
    apply List.map_congr_left
    intro e he
    have hlt : e.1 < lines.length :=
      List.fst_lt_of_mem_enum (List.mem_of_mem_filter he)
    exact searchSnippet_eq lines c e.1 hlt hbound
  rw [List.nil_append, List.map_take]
  exact congrArg (List.take 10) hmap

/-- Witness of C23, amended: a document of five lines, the term "host.GET"
and one line of context give the snippets of lines 2 and 5. -/
theorem search_in_doc_within_range_witness :
    searchInDoc Char.toLower ["a", "Host.Get x", "b", "c", "host.get"] "host.GET" ((1 : Nat) : Int)
        = searchResults Char.toLower ["a", "Host.Get x", "b", "c", "host.get"] "host.GET" 1
      ∧ searchResults Char.toLower ["a", "Host.Get x", "b", "c", "host.get"] "host.GET" 1
        = ["**Match at line 2:**\n```\na\n>>> Host.Get x <<<\nb\n```\n",
           "**Match at line 5:**\n```\nc\n>>> host.get <<<\n```\n"] :=
  ⟨search_in_doc_within_range Char.toLower ["a", "Host.Get x", "b", "c", "host.get"]
      "host.GET" 1 (by decide),
   by decide⟩

end ZabbixMCP
